import Mathlib

/-!
# Key expiration commands of Tendis (`src/tendisplus/commands/expire.cpp`)

A shallow embedding of `expire.cpp`.  The functions of that file talk to the
rest of the server (the clock, `Command::expireKeyIfNeeded`,
`Command::delKeyChkExpire`, the segment manager, the KV store and its
transactions).  None of those is part of `expire.cpp`, so they are taken as an
environment `Env` of oracles.  Every oracle receives the history of all calls
made so far, which makes the environment as general as any deterministic
stateful implementation.  Each call is recorded in the history together with
its result (newest first), so the history doubles as the call trace of a run.

Machine integers are `Nat`/`Int` with explicit reduction modulo `2^64` where
C++ defines the conversion; a signed 64-bit product that overflows is undefined
behaviour and gives no result.
-/

namespace Tendis

/-! ## Data model -/

/-- Record kinds probed by the key-typed commands (`RecordType`). -/
inductive RecordType
  | RT_KV
  | RT_LIST_META
  | RT_HASH_META
  | RT_SET_META
  | RT_ZSET_META
  deriving DecidableEq, Repr

/-- Error codes (`ErrorCodes`).  `expire.cpp` names `ERR_EXPIRED`,
`ERR_NOTFOUND`, `ERR_COMMIT_RETRY`, `ERR_INTERNAL` (and `ERR_BUSY` in a
comment); `ERR_OK` is the code of a success status; every other code of the
enumeration is `ERR_OTHER n`. -/
inductive ErrorCodes
  | ERR_OK
  | ERR_INTERNAL
  | ERR_COMMIT_RETRY
  | ERR_NOTFOUND
  | ERR_EXPIRED
  | ERR_BUSY
  | ERR_OTHER (n : Nat)
  deriving DecidableEq, Repr

/-- A `Status`: an error code and a message. -/
structure Status where
  code : ErrorCodes
  msg : String
  deriving DecidableEq, Repr

/-- The method `Status::ok()`. -/
def Status.ok (s : Status) : Bool :=
  decide (s.code = ErrorCodes.ERR_OK)

/-- `Expected<T>`: either a value or a status that is not ok. -/
inductive Expected (α : Type)
  | value (a : α)
  | error (s : Status) (h : s.ok = false)
  deriving DecidableEq, Repr

/-- The method `Expected<T>::status()`: the ok status for a value. -/
def Expected.status {α : Type} : Expected α → Status
  | .value _ => ⟨ErrorCodes.ERR_OK, ""⟩
  | .error s _ => s

/-- Modelled from the spec: `RecordValue` (its class is declared outside
`expire.cpp`) is the tuple `(payload, ttlMillis : u64)` of section 3.3. -/
structure RecordValue where
  payload : String
  ttlMillis : Nat
  deriving DecidableEq, Repr

/-- Modelled from the spec: `RecordValue::getTtl()` reads the TTL field. -/
def RecordValue.getTtl (rv : RecordValue) : Nat :=
  rv.ttlMillis

/-- Modelled from the spec: `RecordValue::setTtl` "mutates only the TTL
field" (section 3.3). -/
def RecordValue.setTtl (rv : RecordValue) (ttl : Nat) : RecordValue :=
  { rv with ttlMillis := ttl }

/-- The logical tuple `RecordKey(chunkId, dbId, type, primaryKey, secondaryKey)`. -/
structure RecordKey where
  chunkId : Nat
  dbId : Nat
  type : RecordType
  primaryKey : String
  secondaryKey : String
  deriving DecidableEq, Repr

/-- What `getDbWithKeyLock` hands back: the chunk id, the db id and a handle
of the selected store. -/
structure DbWithLock where
  chunkId : Nat
  dbId : Nat
  store : Nat
  deriving DecidableEq, Repr

/-- A session as far as `expire.cpp` looks at it: `getArgs()` and
`getCtx()->getDbId()`. -/
structure Session where
  args : List String
  dbId : Nat
  deriving DecidableEq, Repr

/-- A reply handed to the command layer.  Modelled from the spec:
`Command::fmtOne`, `fmtZero`, `fmtLongLong` produce integer replies and
`Command::fmtBulk` a bulk string (section 6); the byte-level wire format is
not modelled. -/
inductive Reply
  | integer (n : Int)
  | bulk (s : String)
  deriving DecidableEq, Repr

/-- The reply of `Command::fmtOne()`. -/
def fmtOne : Reply := Reply.integer 1

/-- The reply of `Command::fmtZero()`. -/
def fmtZero : Reply := Reply.integer 0

/-- The reply of `Command::fmtLongLong(n)`. -/
def fmtLongLong (n : Int) : Reply := Reply.integer n

/-- The reply of `Command::fmtBulk(s)`. -/
def fmtBulk (s : String) : Reply := Reply.bulk s

/-- Modelled from the spec: the constant `Command::RETRY_CNT`, declared
outside `expire.cpp`; "`RETRY_CNT = 3`" (sections 4.4.2 and 5). -/
def RETRY_CNT : Nat := 3

/-! ## Machine integers -/

/-- Conversion of a mathematical integer to `uint64_t`. -/
def toUInt64 (z : Int) : Nat :=
  (z % 2 ^ 64).toNat

/-- Conversion of a mathematical integer to `int64_t` (two's complement). -/
def toInt64 (z : Int) : Int :=
  (z + 2 ^ 63) % 2 ^ 64 - 2 ^ 63

/-- The integer is a value of `int64_t`; a signed 64-bit arithmetic result
that is not overflows. -/
def fitsInt64 (z : Int) : Bool :=
  decide (-2 ^ 63 ≤ z ∧ z < 2 ^ 63)

/-! ## Calls to the rest of the server -/

/-- One call made by `expire.cpp` to the rest of the server, with its
result. -/
inductive Event
  | nsSinceEpoch (ns : Nat)
  | expireKeyIfNeeded (key : String) (type : RecordType) (res : Expected RecordValue)
  | delKeyChkExpire (key : String) (type : RecordType) (res : Expected Bool)
  | getDbWithKeyLock (key : String) (res : Expected DbWithLock)
  | createTransaction (store : Nat) (res : Expected Nat)
  | getKV (store : Nat) (rk : RecordKey) (txn : Nat) (res : Expected RecordValue)
  | setKV (store : Nat) (rk : RecordKey) (rv : RecordValue) (txn : Nat) (res : Status)
  | commit (txn : Nat) (res : Expected Nat)
  deriving DecidableEq, Repr

/-- The history of calls, newest first. -/
abbrev Trace := List Event

/-- The rest of the server as seen from `expire.cpp`.  Each oracle sees the
history of calls so far.  `getDbWithKeyLock` is always called with
`mgl::LockMode::LOCK_X`.  Transactions are handles (`Nat`). -/
structure Env where
  nsSinceEpoch : Trace → Nat
  stoll : String → Expected Int
  expireKeyIfNeeded : Trace → Session → String → RecordType → Expected RecordValue
  delKeyChkExpire : Trace → Session → String → RecordType → Expected Bool
  getDbWithKeyLock : Trace → Session → String → Expected DbWithLock
  createTransaction : Trace → Nat → Expected Nat
  getKV : Trace → Nat → RecordKey → Nat → Expected RecordValue
  setKV : Trace → Nat → RecordKey → RecordValue → Nat → Status
  commit : Trace → Nat → Expected Nat

/-- A computation of `expire.cpp`: from the history so far to a result and the
extended history, or `none` when the program gives no result: an
`INVARIANT(0)` stops the process, an argument that is not there is read, or a
signed 64-bit product overflows (undefined behaviour in C++). -/
abbrev M (α : Type) := Trace → Option (α × Trace)

/-- The clock `nsSinceEpoch()`, a `uint64_t`. -/
def readClock (env : Env) (t : Trace) : Nat :=
  env.nsSinceEpoch t % 2 ^ 64

/-- The five types in the order of the `for (auto type : {...})` loops. -/
def probeTypes : List RecordType :=
  [RecordType.RT_KV, RecordType.RT_LIST_META, RecordType.RT_HASH_META,
   RecordType.RT_SET_META, RecordType.RT_ZSET_META]

/-! ## `expire.cpp` -/

/-- The function `expireBeforeNow` (lines 17-21). -/
def expireBeforeNow (env : Env) (sess : Session) (type : RecordType) (key : String) :
    M (Expected Bool) := fun t =>
  let r := env.delKeyChkExpire t sess key type
  some (r, Event.delKeyChkExpire key type r :: t)

/-- The retry loop of `expireAfterNow` (lines 53-88).  The first number counts
the iterations still allowed by `i < RETRY_CNT` (it is `RETRY_CNT - i`), the
second is `i`.  With no iteration left the loop is left and `INVARIANT(0)` is
reached. -/
def expireAfterNowLoop (env : Env) (store : Nat) (rk : RecordKey) (expireAt : Nat) :
    Nat → Nat → M (Expected Bool)
  | 0, _, _ => none
  | n + 1, i, t =>
    let ptxn := env.createTransaction t store
    let t1 := Event.createTransaction store ptxn :: t
    match ptxn with
    | .error s h => some (.error s h, t1)
    | .value txn =>
      let eValue := env.getKV t1 store rk txn
      let t2 := Event.getKV store rk txn eValue :: t1
      if eValue.status.code = ErrorCodes.ERR_NOTFOUND then
        some (.value false, t2)
      else
        match eValue with
        | .error s h => some (.error s h, t2)
        | .value v =>
          let rv := v.setTtl expireAt
          let s := env.setKV t2 store rk rv txn
          let t3 := Event.setKV store rk rv txn s :: t2
          if h : s.ok = false then
            some (.error s h, t3)
          else
            let commitStatus := env.commit t3 txn
            let t4 := Event.commit txn commitStatus :: t3
            match commitStatus with
            | .value _ => some (.value true, t4)
            | .error cs h =>
              if cs.code ≠ ErrorCodes.ERR_COMMIT_RETRY then
                some (.error cs h, t4)
              else if i = RETRY_CNT - 1 then
                some (.error cs h, t4)
              else
                expireAfterNowLoop env store rk expireAt n (i + 1) t4

/-- The function `expireAfterNow` (lines 26-89). -/
def expireAfterNow (env : Env) (sess : Session) (type : RecordType) (key : String)
    (expireAt : Nat) : M (Expected Bool) := fun t =>
  let rv := env.expireKeyIfNeeded t sess key type
  let t1 := Event.expireKeyIfNeeded key type rv :: t
  if rv.status.code = ErrorCodes.ERR_EXPIRED then
    some (.value false, t1)
  else if rv.status.code = ErrorCodes.ERR_NOTFOUND then
    some (.value false, t1)
  else
    match rv with
    | .error s h => some (.error s h, t1)
    | .value _ =>
      let expdb := env.getDbWithKeyLock t1 sess key
      let t2 := Event.getDbWithKeyLock key expdb :: t1
      match expdb with
      | .error s h => some (.error s h, t2)
      | .value db =>
        let rk : RecordKey := ⟨db.chunkId, sess.dbId, type, key, ""⟩
        expireAfterNowLoop env db.store rk expireAt RETRY_CNT 0 t2

/-- The body shared by the two `for` loops of `expireGeneric` (lines 96-107
and 110-121), which differ only in the probe they call: `atLeastOne |= done`
over the remaining types, an error of a probe is returned at once. -/
def expireGenericLoop (probe : RecordType → M (Expected Bool)) :
    List RecordType → Bool → M (Expected Reply)
  | [], atLeastOne, t => some (.value (if atLeastOne then fmtOne else fmtZero), t)
  | type :: rest, atLeastOne, t =>
    match probe type t with
    | none => none
    | some (.error s h, t1) => some (.error s h, t1)
    | some (.value done, t1) => expireGenericLoop probe rest (atLeastOne || done) t1

/-- The function `expireGeneric` (lines 91-125). -/
def expireGeneric (env : Env) (sess : Session) (expireAt : Nat) (key : String) :
    M (Expected Reply) := fun t =>
  let ns := readClock env t
  let t1 := Event.nsSinceEpoch ns :: t
  if expireAt ≥ ns / 1000000 then
    expireGenericLoop (fun type => expireAfterNow env sess type key expireAt)
      probeTypes false t1
  else
    expireGenericLoop (fun type => expireBeforeNow env sess type key)
      probeTypes false t1

/-- The computation of `millsecs` in `GeneralExpireCommand::run` (lines
156-167): the clock is read only by `expire` and `pexpire`; `expt.value()` is a
signed 64-bit integer.  The product `expt.value()*1000` is a signed 64-bit
product: when it does not fit in `int64_t` the behaviour is undefined and the
model gives no result.  The sum with the `uint64_t` clock and the store into
the `uint64_t millsecs` convert the signed value modulo `2^64`.  A name other
than the four reaches `INVARIANT(0)`. -/
def GeneralExpireCommand.millsecs (env : Env) (name : String) (expt : Int) : M Nat := fun t =>
  if name = "expire" then
    if fitsInt64 (expt * 1000) then
      let ns := readClock env t
      some (toUInt64 ((ns / 1000000 : Nat) + expt * 1000), Event.nsSinceEpoch ns :: t)
    else
      none
  else if name = "pexpire" then
    let ns := readClock env t
    some (toUInt64 ((ns / 1000000 : Nat) + expt), Event.nsSinceEpoch ns :: t)
  else if name = "expireat" then
    if fitsInt64 (expt * 1000) then
      some (toUInt64 (expt * 1000), t)
    else
      none
  else if name = "pexpireat" then
    some (toUInt64 expt, t)
  else
    none

/-- The method `GeneralExpireCommand::run` (lines 149-169) of the command
object constructed with `name`. -/
def GeneralExpireCommand.run (env : Env) (name : String) (sess : Session) :
    M (Expected Reply) := fun t =>
  match sess.args[1]?, sess.args[2]? with
  | some key, some arg =>
    match env.stoll arg with
    | .error s h => some (.error s h, t)
    | .value expt =>
      match GeneralExpireCommand.millsecs env name (toInt64 expt) t with
      | none => none
      | some (millsecs, t1) => expireGeneric env sess millsecs key t1
  | _, _ => none

/-- Lines 226-229 of `GenericTtlCommand::run`:
`int64_t ms = rv.value().getTtl() - nsSinceEpoch()/1000000; if (ms < 0) ms = 1;`
for the TTL `ttl` and the clock reading `nowMs` (both `uint64_t`): the
difference is taken in `uint64_t` and converted to `int64_t`. -/
def remainingMs (ttl nowMs : Nat) : Int :=
  let ms : Int := toInt64 (toUInt64 ((ttl : Int) - (nowMs : Int)))
  if ms < 0 then 1 else ms

/-- The loop of `GenericTtlCommand::run` (lines 209-238) over the types still
to probe.  `ms/1000` is the truncating division of C++. -/
def GenericTtlCommand.loop (env : Env) (name : String) (sess : Session) (key : String) :
    List RecordType → M (Expected Reply)
  | [], t => some (.value (fmtLongLong (-2)), t)
  | type :: rest, t =>
    let rv := env.expireKeyIfNeeded t sess key type
    let t1 := Event.expireKeyIfNeeded key type rv :: t
    if rv.status.code = ErrorCodes.ERR_EXPIRED then
      GenericTtlCommand.loop env name sess key rest t1
    else if rv.status.code = ErrorCodes.ERR_NOTFOUND then
      GenericTtlCommand.loop env name sess key rest t1
    else
      match rv with
      | .error s h => some (.error s h, t1)
      | .value v =>
        if v.getTtl = 0 then
          some (.value (fmtLongLong (-1)), t1)
        else
          let ns := readClock env t1
          let t2 := Event.nsSinceEpoch ns :: t1
          let ms : Int := remainingMs v.getTtl (ns / 1000000)
          if name = "ttl" then
            some (.value (fmtLongLong (Int.tdiv ms 1000)), t2)
          else if name = "pttl" then
            some (.value (fmtLongLong ms), t2)
          else
            none

/-- The method `GenericTtlCommand::run` (lines 206-239) of a command object
constructed with `name`. -/
def GenericTtlCommand.run (env : Env) (name : String) (sess : Session) :
    M (Expected Reply) := fun t =>
  match sess.args[1]? with
  | some key => GenericTtlCommand.loop env name sess key probeTypes t
  | none => none

/-- The `run` of the registered object `ttlCmd` (lines 242-247): `TtlCommand`
derives from `GeneralExpireCommand` and constructs it with the name "ttl". -/
def ttlCmd.run (env : Env) (sess : Session) : M (Expected Reply) :=
  GeneralExpireCommand.run env "ttl" sess

/-- The `run` of the registered object `pttlCmd` (lines 249-254): `PTtlCommand`
derives from `GeneralExpireCommand` and constructs it with the name "pttl". -/
def pttlCmd.run (env : Env) (sess : Session) : M (Expected Reply) :=
  GeneralExpireCommand.run env "pttl" sess

/-- The loop of `ExistsCommand::run` (lines 281-297) over the types still to
probe. -/
def ExistsCommand.loop (env : Env) (sess : Session) (key : String) :
    List RecordType → M (Expected Reply)
  | [], t => some (.value fmtZero, t)
  | type :: rest, t =>
    let rv := env.expireKeyIfNeeded t sess key type
    let t1 := Event.expireKeyIfNeeded key type rv :: t
    if rv.status.code = ErrorCodes.ERR_EXPIRED then
      ExistsCommand.loop env sess key rest t1
    else if rv.status.code = ErrorCodes.ERR_NOTFOUND then
      ExistsCommand.loop env sess key rest t1
    else
      match rv with
      | .error s h => some (.error s h, t1)
      | .value _ => some (.value fmtOne, t1)

/-- The method `ExistsCommand::run` (lines 278-298). -/
def ExistsCommand.run (env : Env) (sess : Session) : M (Expected Reply) := fun t =>
  match sess.args[1]? with
  | some key => ExistsCommand.loop env sess key probeTypes t
  | none => none

/-- The entries of the map `lookup` of `TypeCommand::run` (lines 326-332), as
written in the source. -/
def TypeCommand.lookup : List (RecordType × String) :=
  [(RecordType.RT_KV, "string"), (RecordType.RT_LIST_META, "list"),
   (RecordType.RT_HASH_META, "hash"), (RecordType.RT_SET_META, "set"),
   (RecordType.RT_ZSET_META, "zset")]

/-- The loop of `TypeCommand::run` (lines 333-345) over the entries of the map
still to visit. -/
def TypeCommand.loop (env : Env) (sess : Session) (key : String) :
    List (RecordType × String) → M (Expected Reply)
  | [], t => some (.value (fmtBulk "none"), t)
  | typestr :: rest, t =>
    let rv := env.expireKeyIfNeeded t sess key typestr.1
    let t1 := Event.expireKeyIfNeeded key typestr.1 rv :: t
    if rv.status.code = ErrorCodes.ERR_EXPIRED then
      TypeCommand.loop env sess key rest t1
    else if rv.status.code = ErrorCodes.ERR_NOTFOUND then
      TypeCommand.loop env sess key rest t1
    else
      match rv with
      | .error s h => some (.error s h, t1)
      | .value _ => some (.value (fmtBulk typestr.2), t1)

/-- The method `TypeCommand::run` (lines 323-346).  A `std::map` is visited in
the order of its keys, that is in the order of the enumeration `RecordType`,
which is declared outside `expire.cpp`: the order of visit `order` is a
parameter, some arrangement of the entries of `lookup`. -/
def TypeCommand.run (env : Env) (order : List (RecordType × String)) (sess : Session) :
    M (Expected Reply) := fun t =>
  match sess.args[1]? with
  | some key => TypeCommand.loop env sess key order t
  | none => none

/-! ## Vocabulary of the statements -/

/-- A probe result that the commands treat as "no such key": the status code
is `ERR_EXPIRED` or `ERR_NOTFOUND`. -/
def isMissing {α : Type} (r : Expected α) : Bool :=
  decide (r.status.code = ErrorCodes.ERR_EXPIRED) ||
    decide (r.status.code = ErrorCodes.ERR_NOTFOUND)

/-- The history after `Command::expireKeyIfNeeded` has been called for each of
`types` in turn. -/
def probeHistory (env : Env) (sess : Session) (key : String) :
    List RecordType → Trace → Trace
  | [], t => t
  | type :: rest, t =>
    probeHistory env sess key rest
      (Event.expireKeyIfNeeded key type (env.expireKeyIfNeeded t sess key type) :: t)

/-- Calling `Command::expireKeyIfNeeded` for each of `types` in turn reports
`NotFound` or `Expired` every time. -/
def allMissing (env : Env) (sess : Session) (key : String) :
    List RecordType → Trace → Bool
  | [], _ => true
  | type :: rest, t =>
    isMissing (env.expireKeyIfNeeded t sess key type) &&
      allMissing env sess key rest
        (Event.expireKeyIfNeeded key type (env.expireKeyIfNeeded t sess key type) :: t)

/-- Running `probe` for each of `types` in turn: the booleans returned and the
final history when every probe returns a value, `none` as soon as one returns
an error or stops. -/
def probesOk (probe : RecordType → M (Expected Bool)) :
    List RecordType → Trace → Option (List Bool × Trace)
  | [], t => some ([], t)
  | type :: rest, t =>
    match probe type t with
    | some (.value b, t1) =>
      match probesOk probe rest t1 with
      | some (bs, t2) => some (b :: bs, t2)
      | none => none
    | _ => none

/-- The probe that `expireGeneric` runs for each type, given the deadline and
the clock reading `nowMs` of line 94. -/
def expireProbe (env : Env) (sess : Session) (key : String) (expireAt nowMs : Nat) :
    RecordType → M (Expected Bool) :=
  fun type =>
    if expireAt ≥ nowMs then expireAfterNow env sess type key expireAt
    else expireBeforeNow env sess type key

/-- The deadline of section 4.5 as a mathematical integer, for a command name,
the clock reading in milliseconds and the parsed argument. -/
def specDeadline (name : String) (nowMs : Nat) (arg : Int) : Int :=
  if name = "expire" then nowMs + arg * 1000
  else if name = "pexpire" then nowMs + arg
  else if name = "expireat" then arg * 1000
  else arg

/-- A call to `createTransaction`. -/
def Event.isCreateTransaction : Event → Bool
  | .createTransaction _ _ => true
  | _ => false

/-- A call to `commit` that succeeded. -/
def Event.isCommitOk : Event → Bool
  | .commit _ (.value _) => true
  | _ => false

/-- A call to `commit` that returned `ERR_COMMIT_RETRY`. -/
def Event.isCommitRetry : Event → Bool
  | .commit _ (.error s _) => decide (s.code = ErrorCodes.ERR_COMMIT_RETRY)
  | _ => false

/-- A call to `setKV`. -/
def Event.isSetKV : Event → Bool
  | .setKV _ _ _ _ _ => true
  | _ => false

/-- A call to `Command::delKeyChkExpire`, the delete path. -/
def Event.isDelete : Event → Bool
  | .delKeyChkExpire _ _ _ => true
  | _ => false

/-- A call made only on the rewrite path: the probe
`Command::expireKeyIfNeeded`, the key lock, or a store operation. -/
def Event.isRewrite : Event → Bool
  | .expireKeyIfNeeded _ _ _ => true
  | .getDbWithKeyLock _ _ => true
  | .createTransaction _ _ => true
  | .getKV _ _ _ _ => true
  | .setKV _ _ _ _ _ => true
  | .commit _ _ => true
  | _ => false

/-! ## Sample environments

Small environments on which the statements below are evaluated.  The store
does not change: the probes and reads answer from a fixed table. -/

/-- The status of a missing key. -/
def stNotFound : Status := ⟨ErrorCodes.ERR_NOTFOUND, "not found"⟩

/-- The status of a conflict at commit. -/
def stCommitRetry : Status := ⟨ErrorCodes.ERR_COMMIT_RETRY, "retry"⟩

/-- The status of a failed parse. -/
def stParse : Status := ⟨ErrorCodes.ERR_OTHER 0, "not a number"⟩

/-- A parser that knows a few numerals. -/
def sampleStoll (s : String) : Expected Int :=
  if s = "10" then .value 10
  else if s = "1" then .value 1
  else if s = "0" then .value 0
  else if s = "-1" then .value (-1)
  else .error stParse rfl

/-- An answer from a table of live records: the record or `NotFound`. -/
def answerFrom (live : RecordType → Option RecordValue) (type : RecordType) :
    Expected RecordValue :=
  match live type with
  | some rv => .value rv
  | none => .error stNotFound rfl

/-- The environment with clock `nowNs`, live records `live` and the given
outcome of every commit (as a function of the number of calls made before
it). -/
def sampleEnv (nowNs : Nat) (live : RecordType → Option RecordValue)
    (commits : Nat → Expected Nat) : Env where
  nsSinceEpoch := fun _ => nowNs
  stoll := sampleStoll
  expireKeyIfNeeded := fun _ _ _ type => answerFrom live type
  delKeyChkExpire := fun _ _ _ type => .value (live type).isSome
  getDbWithKeyLock := fun _ _ _ => .value ⟨7, 0, 1⟩
  createTransaction := fun t _ => .value t.length
  getKV := fun _ _ rk _ => answerFrom live rk.type
  setKV := fun _ _ _ _ _ => ⟨ErrorCodes.ERR_OK, ""⟩
  commit := fun t _ => commits t.length

/-- No live record at all. -/
def liveNone : RecordType → Option RecordValue :=
  fun _ => none

/-- One string record without TTL. -/
def liveKV : RecordType → Option RecordValue :=
  fun type => if type = RecordType.RT_KV then some ⟨"v", 0⟩ else none

/-- One hash meta record with the given TTL. -/
def liveHash (ttl : Nat) : RecordType → Option RecordValue :=
  fun type => if type = RecordType.RT_HASH_META then some ⟨"h", ttl⟩ else none

/-- Every commit succeeds. -/
def commitsOk : Nat → Expected Nat :=
  fun n => .value n

/-- Every commit reports a conflict. -/
def commitsRetry : Nat → Expected Nat :=
  fun _ => .error stCommitRetry rfl

/-- The clock of scenario S4: `1000000000` ms. -/
def sampleNowNs : Nat := 1000000000 * 1000000

/-- The TTL written by a call to `setKV`. -/
def Event.writtenTtl : Event → Option Nat
  | .setKV _ _ rv _ _ => some rv.ttlMillis
  | _ => none

/-- What a run is judged by: the reply, whether the delete path was taken,
whether the rewrite path was taken, and the TTLs written. -/
def pathSummary (r : Option (Expected Reply × Trace)) :
    Option (Expected Reply × Bool × Bool × List Nat) :=
  r.map (fun x => (x.1, x.2.any Event.isDelete, x.2.any Event.isRewrite,
    x.2.filterMap Event.writtenTtl))

/-- The reply of a run, without its history. -/
def replyOf (r : Option (Expected Reply × Trace)) : Option (Expected Reply) :=
  r.map (fun x => x.1)

/-- The type names of `TYPE` in the table of section 4.5. -/
def typeName : RecordType → String
  | .RT_KV => "string"
  | .RT_LIST_META => "list"
  | .RT_HASH_META => "hash"
  | .RT_SET_META => "set"
  | .RT_ZSET_META => "zset"

/-- The status of a key that is locked. -/
def stBusy : Status := ⟨ErrorCodes.ERR_BUSY, "key locked"⟩

/-- Like `sampleEnv`, but the probes of the list type fail with `Busy`. -/
def busyEnv (nowNs : Nat) (live : RecordType → Option RecordValue) : Env :=
  { sampleEnv nowNs live commitsOk with
    expireKeyIfNeeded := fun _ _ _ type =>
      if type = RecordType.RT_LIST_META then .error stBusy rfl else answerFrom live type
    delKeyChkExpire := fun _ _ _ type =>
      if type = RecordType.RT_LIST_META then .error stBusy rfl else .value (live type).isSome }

/-- A call to `getDbWithKeyLock`. -/
def Event.isLock : Event → Bool
  | .getDbWithKeyLock _ _ => true
  | _ => false

/-- In a history (newest first) every call to `createTransaction` comes right
after the call that took the key lock or right after a `commit` that returned
`ERR_COMMIT_RETRY`. -/
def opensOnlyAfterConflict : Trace → Bool
  | [] => true
  | [e] => !e.isCreateTransaction
  | e :: e' :: rest =>
    (!e.isCreateTransaction || e'.isLock || e'.isCommitRetry) &&
      opensOnlyAfterConflict (e' :: rest)

/-- What a run of the retry loop of `expireAfterNow` with `n` iterations left
guarantees about its result `r` and the calls `new` it made (newest first):
at most `n` transactions opened, each opened right after the lock or a
`CommitRetry`; `n` commits with `CommitRetry` make that error the result; the
result `true` comes with a re-read, a write of the re-read value with the new
TTL and a successful commit, all in the newest transaction; any other result
comes without a successful commit; a re-read reporting `NotFound` is the
newest call of the run, comes directly after the opening of its transaction,
and the result is `false`. -/
structure RetryLoopFacts (store : Nat) (rk : RecordKey) (expireAt : Nat) (n : Nat)
    (r : Expected Bool) (new : Trace) : Prop where
  opened : (new.filter Event.isCreateTransaction).length ≤ n
  ordered : ∀ e0 rest, (e0.isLock || e0.isCommitRetry) = true →
    opensOnlyAfterConflict (e0 :: rest) = true →
    opensOnlyAfterConflict (new ++ e0 :: rest) = true
  exhausted : (new.filter Event.isCommitRetry).length = n →
    ∃ txn s h rest, new = Event.commit txn (Expected.error s h) :: rest ∧
      s.code = ErrorCodes.ERR_COMMIT_RETRY ∧ r = Expected.error s h
  written : r = Expected.value true →
    ∃ txn v c s rest, s.ok = true ∧
      new = Event.commit txn (Expected.value c) ::
        Event.setKV store rk (v.setTtl expireAt) txn s ::
        Event.getKV store rk txn (Expected.value v) ::
        Event.createTransaction store (Expected.value txn) :: rest
  uncommitted : r ≠ Expected.value true → ∀ e ∈ new, e.isCommitOk = false
  vanished : ∀ store' rk' txn res, Event.getKV store' rk' txn res ∈ new →
    res.status.code = ErrorCodes.ERR_NOTFOUND →
    r = Expected.value false ∧
      ∃ rest', new = Event.getKV store' rk' txn res ::
        Event.createTransaction store (Expected.value txn) :: rest'

/-- Like `sampleEnv` with a live string record, but the record is gone when it
is re-read inside the transaction. -/
def vanishEnv (nowNs : Nat) : Env :=
  { sampleEnv nowNs liveKV commitsOk with
    getKV := fun _ _ _ _ => .error stNotFound rfl }

/-- The calls of `expireAfterNow` on `sampleEnv` with a live string record,
`expireAt = 1000010000` and an empty history. -/
def sampleRewriteCalls : Trace :=
  [Event.commit 2 (Expected.value 5),
   Event.setKV 1 ⟨7, 0, RecordType.RT_KV, "k", ""⟩ ⟨"v", 1000010000⟩ 2 ⟨ErrorCodes.ERR_OK, ""⟩,
   Event.getKV 1 ⟨7, 0, RecordType.RT_KV, "k", ""⟩ 2 (Expected.value ⟨"v", 0⟩),
   Event.createTransaction 1 (Expected.value 2),
   Event.getDbWithKeyLock "k" (Expected.value ⟨7, 0, 1⟩),
   Event.expireKeyIfNeeded "k" RecordType.RT_KV (Expected.value ⟨"v", 0⟩)]

/-- The calls of `expireAfterNow` on `vanishEnv` with an empty history. -/
def sampleVanishCalls : Trace :=
  [Event.getKV 1 ⟨7, 0, RecordType.RT_KV, "k", ""⟩ 2 (Expected.error stNotFound rfl),
   Event.createTransaction 1 (Expected.value 2),
   Event.getDbWithKeyLock "k" (Expected.value ⟨7, 0, 1⟩),
   Event.expireKeyIfNeeded "k" RecordType.RT_KV (Expected.value ⟨"v", 0⟩)]

/-- One sorted-set meta record without TTL. -/
def liveZset : RecordType → Option RecordValue :=
  fun type => if type = RecordType.RT_ZSET_META then some ⟨"z", 0⟩ else none

/-- Like `sampleEnv` with a live string record, but every commit reports a
conflict and the record is gone when it is re-read after a conflict. -/
def retryVanishEnv (nowNs : Nat) : Env :=
  { sampleEnv nowNs liveKV commitsRetry with
    getKV := fun t _ rk _ =>
      if t.any Event.isCommitRetry then .error stNotFound rfl else answerFrom liveKV rk.type }

/-- The calls of `expireAfterNow` on `retryVanishEnv` with an empty history. -/
def sampleRetryVanishCalls : Trace :=
  [Event.getKV 1 ⟨7, 0, RecordType.RT_KV, "k", ""⟩ 6 (Expected.error stNotFound rfl),
   Event.createTransaction 1 (Expected.value 6),
   Event.commit 2 (Expected.error stCommitRetry rfl),
   Event.setKV 1 ⟨7, 0, RecordType.RT_KV, "k", ""⟩ ⟨"v", 1000010000⟩ 2 ⟨ErrorCodes.ERR_OK, ""⟩,
   Event.getKV 1 ⟨7, 0, RecordType.RT_KV, "k", ""⟩ 2 (Expected.value ⟨"v", 0⟩),
   Event.createTransaction 1 (Expected.value 2),
   Event.getDbWithKeyLock "k" (Expected.value ⟨7, 0, 1⟩),
   Event.expireKeyIfNeeded "k" RecordType.RT_KV (Expected.value ⟨"v", 0⟩)]

end Tendis

namespace Tendis

/-! ## Machine integers -/

theorem toInt64_of_range (z : Int) (h0 : -2 ^ 63 ≤ z) (h1 : z < 2 ^ 63) : toInt64 z = z := by
  unfold toInt64
  omega

theorem toUInt64_of_range (z : Int) (h0 : 0 ≤ z) (h1 : z < 2 ^ 64) :
    toUInt64 z = z.toNat := by
  unfold toUInt64
  rw [Int.emod_eq_of_lt h0 h1]

theorem toUInt64_add_toInt64 (a z : Int) : toUInt64 (a + toInt64 z) = toUInt64 (a + z) := by
  unfold toUInt64 toInt64
  congr 1
  omega

theorem toUInt64_toInt64 (z : Int) : toUInt64 (toInt64 z) = toUInt64 z := by
  unfold toUInt64 toInt64
  congr 1
  omega

/-! ## The deadline of `GeneralExpireCommand::run` -/

theorem millsecs_eq (env : Env) (name : String) (v : Int) (t : Trace)
    (hname : name = "expire" ∨ name = "pexpire" ∨ name = "expireat" ∨ name = "pexpireat")
    (hfit : name = "expire" ∨ name = "expireat" → fitsInt64 (v * 1000) = true) :
    GeneralExpireCommand.millsecs env name v t =
      some (toUInt64 (specDeadline name (readClock env t / 1000000) v),
        if name = "expire" ∨ name = "pexpire" then Event.nsSinceEpoch (readClock env t) :: t
        else t) := by
  rcases hname with h | h | h | h <;> subst h
  · simp [GeneralExpireCommand.millsecs, specDeadline, hfit (Or.inl rfl)]
  · simp [GeneralExpireCommand.millsecs, specDeadline]
  · simp [GeneralExpireCommand.millsecs, specDeadline, hfit (Or.inr rfl)]
  · simp [GeneralExpireCommand.millsecs, specDeadline]

/-- Inside the ranges of the machine integers the deadline of the table of
section 4.5 is what `GeneralExpireCommand::run` passes on: for `expire`,
`pexpire`, `expireat`, `pexpireat` and a parsed signed 64-bit argument, when the
product `s*1000` of `expire` and `expireat` fits in `int64_t` and the deadline
(`now_ms + s*1000`, `now_ms + ms`, `s*1000`, `ms`, with
`now_ms = nsSinceEpoch()/1000000`) lies in the range of `uint64_t`, the run
is `expireGeneric` at exactly that deadline. -/
theorem run_deadline_in_range (env : Env) (name : String) (sess : Session)
    (key arg : String) (v : Int) (t : Trace)
    (hname : name = "expire" ∨ name = "pexpire" ∨ name = "expireat" ∨ name = "pexpireat")
    (hkey : sess.args[1]? = some key) (harg : sess.args[2]? = some arg)
    (hparse : env.stoll arg = Expected.value v)
    (hv0 : -2 ^ 63 ≤ v) (hv1 : v < 2 ^ 63)
    (hfit : name = "expire" ∨ name = "expireat" → fitsInt64 (v * 1000) = true)
    (h0 : 0 ≤ specDeadline name (readClock env t / 1000000) v)
    (h1 : specDeadline name (readClock env t / 1000000) v < 2 ^ 64) :
    GeneralExpireCommand.run env name sess t =
      expireGeneric env sess (specDeadline name (readClock env t / 1000000) v).toNat key
        (if name = "expire" ∨ name = "pexpire" then Event.nsSinceEpoch (readClock env t) :: t
         else t) := by
  unfold GeneralExpireCommand.run
  simp only [hkey, harg, hparse, toInt64_of_range v hv0 hv1, millsecs_eq env name v t hname hfit,
    toUInt64_of_range _ h0 h1]

/-- Scenario S4: `EXPIRE k 10` at `now_ms = 1000000000` passes the deadline
`1000010000`. -/
theorem run_deadline_in_range_sample :
    specDeadline "expire" (readClock (sampleEnv sampleNowNs liveKV commitsOk) [] / 1000000) 10
        = 1000010000 ∧
    GeneralExpireCommand.run (sampleEnv sampleNowNs liveKV commitsOk) "expire"
        ⟨["expire", "k", "10"], 0⟩ [] =
      expireGeneric (sampleEnv sampleNowNs liveKV commitsOk) ⟨["expire", "k", "10"], 0⟩
        1000010000 "k" [Event.nsSinceEpoch 1000000000000000] :=
  ⟨by decide,
   run_deadline_in_range (sampleEnv sampleNowNs liveKV commitsOk) "expire"
     ⟨["expire", "k", "10"], 0⟩ "k" "10" 10 [] (Or.inl rfl) rfl rfl rfl
     (by decide) (by decide) (fun _ => by decide) (by decide) (by decide)⟩

/-- C2 at the failing input: `EXPIREAT k -1` at `now_ms = 1000000000`.  The
deadline of the table is `-1 * 1000 = -1000` (the product fits in `int64_t`),
but the `uint64_t millsecs` holds `2^64 - 1000` and that is the deadline
`GeneralExpireCommand::run` passes to `expireGeneric`.  The sibling
`EXPIRE k -1` passes the deadline of the table, `now_ms - 1000`. -/
theorem millsecs_expireat_negative :
    fitsInt64 (toInt64 (-1) * 1000) = true ∧
    (GeneralExpireCommand.millsecs (sampleEnv sampleNowNs liveKV commitsOk) "expireat"
        (toInt64 (-1)) []).map (fun r => (r.1 : Int)) = some 18446744073709550616 ∧
    (GeneralExpireCommand.millsecs (sampleEnv sampleNowNs liveKV commitsOk) "expireat"
        (toInt64 (-1)) []).map (fun r => (r.1 : Int)) ≠
      some (specDeadline "expireat" 1000000000 (-1)) ∧
    GeneralExpireCommand.run (sampleEnv sampleNowNs liveKV commitsOk) "expireat"
        ⟨["expireat", "k", "-1"], 0⟩ [] =
      expireGeneric (sampleEnv sampleNowNs liveKV commitsOk) ⟨["expireat", "k", "-1"], 0⟩
        18446744073709550616 "k" [] ∧
    (GeneralExpireCommand.millsecs (sampleEnv sampleNowNs liveKV commitsOk) "expire"
        (toInt64 (-1)) []).map (fun r => (r.1 : Int)) =
      some (specDeadline "expire" 1000000000 (-1)) := by
  refine ⟨by decide, by decide, by decide, rfl, by decide⟩

/-- C1 at the failing input: `EXPIREAT k -1` (and `PEXPIREAT k -1`) at
`now_ms = 1000000000` on a live string key.  The deadline `-1000` (`-1`) is
before `now_ms`, yet the run makes no call of the delete path, takes the
rewrite path, writes the TTL `2^64 - 1000` (`2^64 - 1`) and replies `1`.  The
sibling `EXPIRE k -1`, whose deadline is also before `now_ms`, takes the delete
path. -/
theorem expireat_negative_rewrites :
    specDeadline "expireat" 1000000000 (-1) < 1000000000 ∧
    pathSummary (GeneralExpireCommand.run (sampleEnv sampleNowNs liveKV commitsOk) "expireat"
        ⟨["expireat", "k", "-1"], 0⟩ []) =
      some (Expected.value (Reply.integer 1), false, true, [18446744073709550616]) ∧
    specDeadline "pexpireat" 1000000000 (-1) < 1000000000 ∧
    pathSummary (GeneralExpireCommand.run (sampleEnv sampleNowNs liveKV commitsOk) "pexpireat"
        ⟨["pexpireat", "k", "-1"], 0⟩ []) =
      some (Expected.value (Reply.integer 1), false, true, [18446744073709551615]) ∧
    specDeadline "expire" 1000000000 (-1) < 1000000000 ∧
    pathSummary (GeneralExpireCommand.run (sampleEnv sampleNowNs liveKV commitsOk) "expire"
        ⟨["expire", "k", "-1"], 0⟩ []) =
      some (Expected.value (Reply.integer 1), true, false, []) := by
  refine ⟨by decide, by decide, by decide, by decide, by decide, by decide⟩

/-! ## The registered `ttl` and `pttl` objects -/

theorem generalExpire_other_name (env : Env) (name : String) (sess : Session) (t : Trace)
    (hname : ¬ (name = "expire" ∨ name = "pexpire" ∨ name = "expireat" ∨ name = "pexpireat")) :
    GeneralExpireCommand.run env name sess t = none ∨
      ∃ s h, GeneralExpireCommand.run env name sess t = some (Expected.error s h, t) := by
  simp only [not_or] at hname
  obtain ⟨h1, h2, h3, h4⟩ := hname
  unfold GeneralExpireCommand.run
  split
  · split
    · next s h _ => exact Or.inr ⟨s, h, rfl⟩
    · simp [GeneralExpireCommand.millsecs, h1, h2, h3, h4]
  · exact Or.inl rfl

theorem ttlCmd_never_replies (env : Env) (sess : Session) (t : Trace) :
    ttlCmd.run env sess t = none ∨
      ∃ s h, ttlCmd.run env sess t = some (Expected.error s h, t) :=
  generalExpire_other_name env "ttl" sess t (by decide)

theorem pttlCmd_never_replies (env : Env) (sess : Session) (t : Trace) :
    pttlCmd.run env sess t = none ∨
      ∃ s h, pttlCmd.run env sess t = some (Expected.error s h, t) :=
  generalExpire_other_name env "pttl" sess t (by decide)

/-- C6 at the failing input: the key is missing under all five types.
`GenericTtlCommand::run` replies `-2` (`-1` for a live key without TTL), but the
registered `ttlCmd` and `pttlCmd` run `GeneralExpireCommand::run`, which gives
no reply: with the two arguments of `TTL k` there is no `args[2]`, and with a
third argument the name matches none of the four branches and `INVARIANT(0)`
is reached. -/
theorem ttlCmd_run_missing_key :
    replyOf (GenericTtlCommand.run (sampleEnv sampleNowNs liveNone commitsOk) "ttl"
        ⟨["ttl", "k"], 0⟩ []) = some (Expected.value (Reply.integer (-2))) ∧
    replyOf (GenericTtlCommand.run (sampleEnv sampleNowNs liveKV commitsOk) "ttl"
        ⟨["ttl", "k"], 0⟩ []) = some (Expected.value (Reply.integer (-1))) ∧
    ttlCmd.run (sampleEnv sampleNowNs liveNone commitsOk) ⟨["ttl", "k"], 0⟩ [] = none ∧
    ttlCmd.run (sampleEnv sampleNowNs liveNone commitsOk) ⟨["ttl", "k", "10"], 0⟩ [] = none ∧
    ttlCmd.run (sampleEnv sampleNowNs liveKV commitsOk) ⟨["ttl", "k"], 0⟩ [] = none ∧
    pttlCmd.run (sampleEnv sampleNowNs liveNone commitsOk) ⟨["pttl", "k"], 0⟩ [] = none ∧
    pttlCmd.run (sampleEnv sampleNowNs liveNone commitsOk) ⟨["pttl", "k", "10"], 0⟩ [] = none := by
  decide

/-! ## Probing the five types in turn -/

theorem probeTypes_eq :
    probeTypes = [RecordType.RT_KV, RecordType.RT_LIST_META, RecordType.RT_HASH_META,
      RecordType.RT_SET_META, RecordType.RT_ZSET_META] :=
  rfl

theorem isMissing_iff {α : Type} (r : Expected α) :
    isMissing r = true ↔
      r.status.code = ErrorCodes.ERR_EXPIRED ∨ r.status.code = ErrorCodes.ERR_NOTFOUND := by
  simp [isMissing]

theorem isMissing_value {α : Type} (a : α) : isMissing (Expected.value a) = false := by
  simp [isMissing, Expected.status]

theorem probeHistory_append (env : Env) (sess : Session) (key : String)
    (pre post : List RecordType) (t : Trace) :
    probeHistory env sess key (pre ++ post) t =
      probeHistory env sess key post (probeHistory env sess key pre t) := by
  induction pre generalizing t with
  | nil => rfl
  | cons type pre ih => exact ih _

theorem probeHistory_snoc (env : Env) (sess : Session) (key : String)
    (pre : List RecordType) (type : RecordType) (t : Trace) :
    probeHistory env sess key (pre ++ [type]) t =
      Event.expireKeyIfNeeded key type
        (env.expireKeyIfNeeded (probeHistory env sess key pre t) sess key type) ::
        probeHistory env sess key pre t := by
  rw [probeHistory_append]
  rfl

theorem allMissing_or_first (env : Env) (sess : Session) (key : String)
    (types : List RecordType) (t : Trace) :
    allMissing env sess key types t = true ∨
      ∃ pre type post, types = pre ++ type :: post ∧ allMissing env sess key pre t = true ∧
        isMissing (env.expireKeyIfNeeded (probeHistory env sess key pre t) sess key type)
          = false := by
  induction types generalizing t with
  | nil => exact Or.inl rfl
  | cons type rest ih =>
    cases hm : isMissing (env.expireKeyIfNeeded t sess key type) with
    | false => exact Or.inr ⟨[], type, rest, rfl, rfl, hm⟩
    | true =>
      rcases ih (Event.expireKeyIfNeeded key type (env.expireKeyIfNeeded t sess key type) :: t)
        with h | ⟨pre, ty, post, hsplit, hpre, hty⟩
      · left
        simp [allMissing, hm, h]
      · right
        refine ⟨type :: pre, ty, post, by simp [hsplit], ?_, ?_⟩
        · simp [allMissing, hm, hpre]
        · simpa [probeHistory] using hty

theorem allMissing_split_false (env : Env) (sess : Session) (key : String)
    (pre post : List RecordType) (type : RecordType) (t : Trace)
    (hty : isMissing (env.expireKeyIfNeeded (probeHistory env sess key pre t) sess key type)
      = false) :
    allMissing env sess key (pre ++ type :: post) t = false := by
  induction pre generalizing t with
  | nil => simp [allMissing, probeHistory] at hty ⊢; simp [hty]
  | cons ty pre ih =>
    simp only [List.cons_append, allMissing, Bool.and_eq_false_imp]
    intro _
    exact ih _ (by simpa [probeHistory] using hty)

/-! ## `GenericTtlCommand::run` -/

theorem genericTtl_loop_skip (env : Env) (name : String) (sess : Session) (key : String)
    (pre rest : List RecordType) (t : Trace) (hpre : allMissing env sess key pre t = true) :
    GenericTtlCommand.loop env name sess key (pre ++ rest) t =
      GenericTtlCommand.loop env name sess key rest (probeHistory env sess key pre t) := by
  induction pre generalizing t with
  | nil => rfl
  | cons type pre ih =>
    simp only [allMissing, Bool.and_eq_true, isMissing_iff] at hpre
    obtain ⟨hm, hrest⟩ := hpre
    simp only [List.cons_append, probeHistory]
    rw [← ih _ hrest]
    rcases hm with h | h <;> simp [GenericTtlCommand.loop, h]

theorem clock_ms_lt (env : Env) (t : Trace) : readClock env t / 1000000 < 2 ^ 63 := by
  have h : readClock env t < 2 ^ 64 := Nat.mod_lt _ (by decide)
  omega

theorem remainingMs_of_lt (ttl now : Nat) (h1 : now < ttl) (h2 : ttl < 2 ^ 64)
    (h3 : ttl - now < 2 ^ 63) :
    remainingMs ttl now = ((ttl - now : Nat) : Int) := by
  unfold remainingMs toInt64 toUInt64
  simp only
  split <;> omega

theorem remainingMs_of_gt (ttl now : Nat) (h1 : ttl < now) (h2 : now < 2 ^ 63) :
    remainingMs ttl now = 1 := by
  unfold remainingMs toInt64 toUInt64
  simp only
  split <;> omega

theorem remainingMs_self (now : Nat) : remainingMs now now = 0 := by
  unfold remainingMs toInt64 toUInt64
  simp

theorem genericTtl_loop_all_missing (env : Env) (name : String) (sess : Session)
    (key : String) (types : List RecordType) (t : Trace)
    (h : allMissing env sess key types t = true) :
    GenericTtlCommand.loop env name sess key types t =
      some (Expected.value (Reply.integer (-2)), probeHistory env sess key types t) := by
  have := genericTtl_loop_skip env name sess key types [] t h
  rw [List.append_nil] at this
  rw [this]
  rfl

/-- C4 (as amended): `GenericTtlCommand::run` replies `-2` when
`expireKeyIfNeeded` reports `NotFound` or `Expired` for all five types.  When
the probes before some type report `NotFound` or `Expired` and the probe of that
type returns a live record, it replies `-1` if the record's `ttlMillis` is `0`;
and for a `ttlMillis` below `2^64` with `now_ms < ttlMillis` and
`ttlMillis - now_ms < 2^63` it replies `ttlMillis - now_ms` for `pttl` and
`(ttlMillis - now_ms) / 1000` for `ttl`. -/
theorem genericTtl_replies (env : Env) (name : String) (sess : Session) (key : String)
    (t : Trace) (hkey : sess.args[1]? = some key) :
    (allMissing env sess key [RecordType.RT_KV, RecordType.RT_LIST_META, RecordType.RT_HASH_META,
        RecordType.RT_SET_META, RecordType.RT_ZSET_META] t = true →
      GenericTtlCommand.run env name sess t =
        some (Expected.value (Reply.integer (-2)), probeHistory env sess key [RecordType.RT_KV, RecordType.RT_LIST_META, RecordType.RT_HASH_META,
        RecordType.RT_SET_META, RecordType.RT_ZSET_META] t)) ∧
    (∀ pre type post v, [RecordType.RT_KV, RecordType.RT_LIST_META, RecordType.RT_HASH_META,
        RecordType.RT_SET_META, RecordType.RT_ZSET_META] = pre ++ type :: post →
      allMissing env sess key pre t = true →
      env.expireKeyIfNeeded (probeHistory env sess key pre t) sess key type = Expected.value v →
      (v.ttlMillis = 0 →
        GenericTtlCommand.run env name sess t =
          some (Expected.value (Reply.integer (-1)),
            probeHistory env sess key (pre ++ [type]) t)) ∧
      (∀ nowMs : Nat,
        nowMs = readClock env (probeHistory env sess key (pre ++ [type]) t) / 1000000 →
        v.ttlMillis < 2 ^ 64 → nowMs < v.ttlMillis → v.ttlMillis - nowMs < 2 ^ 63 →
        GenericTtlCommand.run env "pttl" sess t =
          some (Expected.value (Reply.integer ((v.ttlMillis - nowMs : Nat) : Int)),
            Event.nsSinceEpoch (readClock env (probeHistory env sess key (pre ++ [type]) t)) ::
              probeHistory env sess key (pre ++ [type]) t) ∧
        GenericTtlCommand.run env "ttl" sess t =
          some (Expected.value (Reply.integer (((v.ttlMillis - nowMs) / 1000 : Nat) : Int)),
            Event.nsSinceEpoch (readClock env (probeHistory env sess key (pre ++ [type]) t)) ::
              probeHistory env sess key (pre ++ [type]) t))) := by
  rw [← probeTypes_eq]
  refine ⟨?_, ?_⟩
  · intro h
    simp only [GenericTtlCommand.run, hkey]
    exact genericTtl_loop_all_missing env name sess key probeTypes t h
  · intro pre type post v hsplit hpre hv
    have hrun : ∀ nm, GenericTtlCommand.run env nm sess t =
        GenericTtlCommand.loop env nm sess key (type :: post)
          (probeHistory env sess key pre t) := by
      intro nm
      simp only [GenericTtlCommand.run, hkey]
      rw [hsplit]
      exact genericTtl_loop_skip env nm sess key pre _ t hpre
    refine ⟨?_, ?_⟩
    · intro hz
      rw [hrun, probeHistory_snoc]
      simp [GenericTtlCommand.loop, hv, Expected.status, RecordValue.getTtl, hz, fmtLongLong]
    · intro nowMs hnow hlt hgt hsmall
      have hne : v.ttlMillis ≠ 0 := by omega
      rw [probeHistory_snoc, hv] at hnow
      have hms := remainingMs_of_lt v.ttlMillis nowMs hgt hlt hsmall
      rw [hrun, hrun, probeHistory_snoc, hv]
      subst hnow
      refine ⟨?_, ?_⟩
      · simp [GenericTtlCommand.loop, hv, Expected.status, RecordValue.getTtl, hne, fmtLongLong,
          hms]
      · simp only [GenericTtlCommand.loop, hv, Expected.status, RecordValue.getTtl, hne,
          fmtLongLong, hms]
        simp [Int.tdiv_eq_ediv]

/-- C4 on samples: a missing key gives `-2`; a hash whose TTL is `10000` ms
ahead gives `PTTL = 10000` and `TTL = 10`; a string without TTL gives `-1`, and
so does a sorted set without TTL, the last type probed. -/
theorem genericTtl_replies_witness :
    GenericTtlCommand.run (sampleEnv sampleNowNs liveNone commitsOk) "ttl" ⟨["ttl", "k"], 0⟩ [] =
      some (Expected.value (Reply.integer (-2)),
        probeHistory (sampleEnv sampleNowNs liveNone commitsOk) ⟨["ttl", "k"], 0⟩ "k"
          [RecordType.RT_KV, RecordType.RT_LIST_META, RecordType.RT_HASH_META,
            RecordType.RT_SET_META, RecordType.RT_ZSET_META] []) ∧
    replyOf (GenericTtlCommand.run (sampleEnv sampleNowNs liveKV commitsOk) "ttl"
        ⟨["ttl", "k"], 0⟩ []) = some (Expected.value (Reply.integer (-1))) ∧
    replyOf (GenericTtlCommand.run (sampleEnv sampleNowNs (liveHash 1000010000) commitsOk) "pttl"
        ⟨["ttl", "k"], 0⟩ []) = some (Expected.value (Reply.integer 10000)) ∧
    replyOf (GenericTtlCommand.run (sampleEnv sampleNowNs (liveHash 1000010000) commitsOk) "ttl"
        ⟨["ttl", "k"], 0⟩ []) = some (Expected.value (Reply.integer 10)) ∧
    replyOf (GenericTtlCommand.run (sampleEnv sampleNowNs liveZset commitsOk) "ttl"
        ⟨["ttl", "k"], 0⟩ []) = some (Expected.value (Reply.integer (-1))) := by
  refine ⟨?_, ?_, ?_, ?_, ?_⟩
  · exact (genericTtl_replies (sampleEnv sampleNowNs liveNone commitsOk) "ttl"
      ⟨["ttl", "k"], 0⟩ "k" [] rfl).1 (by decide)
  · rw [((genericTtl_replies (sampleEnv sampleNowNs liveKV commitsOk) "ttl"
      ⟨["ttl", "k"], 0⟩ "k" [] rfl).2 [] RecordType.RT_KV
        [RecordType.RT_LIST_META, RecordType.RT_HASH_META, RecordType.RT_SET_META,
          RecordType.RT_ZSET_META] ⟨"v", 0⟩ rfl rfl rfl).1 rfl]
    rfl
  · rw [(((genericTtl_replies (sampleEnv sampleNowNs (liveHash 1000010000) commitsOk) "pttl"
      ⟨["ttl", "k"], 0⟩ "k" [] rfl).2 [RecordType.RT_KV, RecordType.RT_LIST_META]
        RecordType.RT_HASH_META [RecordType.RT_SET_META, RecordType.RT_ZSET_META]
        ⟨"h", 1000010000⟩ rfl (by decide) rfl).2 1000000000 (by decide) (by decide)
        (by decide) (by decide)).1]
    rfl
  · rw [(((genericTtl_replies (sampleEnv sampleNowNs (liveHash 1000010000) commitsOk) "ttl"
      ⟨["ttl", "k"], 0⟩ "k" [] rfl).2 [RecordType.RT_KV, RecordType.RT_LIST_META]
        RecordType.RT_HASH_META [RecordType.RT_SET_META, RecordType.RT_ZSET_META]
        ⟨"h", 1000010000⟩ rfl (by decide) rfl).2 1000000000 (by decide) (by decide)
        (by decide) (by decide)).2]
    rfl
  · rw [((genericTtl_replies (sampleEnv sampleNowNs liveZset commitsOk) "ttl"
      ⟨["ttl", "k"], 0⟩ "k" [] rfl).2
        [RecordType.RT_KV, RecordType.RT_LIST_META, RecordType.RT_HASH_META,
          RecordType.RT_SET_META] RecordType.RT_ZSET_META [] ⟨"z", 0⟩ rfl (by decide) rfl).1 rfl]
    rfl

/-- C4 (as stated) fails: a live hash with `ttlMillis = 2^64 - 1` at
`now_ms = 1000000000` has `ttlMillis > now_ms`, yet `PTTL` replies `1`, not
`ttlMillis - now_ms`. -/
theorem genericTtl_huge_ttl :
    (1000000000 : Nat) < 18446744073709551615 ∧
    replyOf (GenericTtlCommand.run
        (sampleEnv sampleNowNs (liveHash 18446744073709551615) commitsOk) "pttl"
        ⟨["pttl", "k"], 0⟩ []) = some (Expected.value (Reply.integer 1)) ∧
    replyOf (GenericTtlCommand.run
        (sampleEnv sampleNowNs (liveHash 18446744073709551615) commitsOk) "pttl"
        ⟨["pttl", "k"], 0⟩ []) ≠
      some (Expected.value (Reply.integer (18446744073709551615 - 1000000000))) := by
  decide

/-- C5 (as amended): for a live record with `ttlMillis ≠ 0` returned by the
probe, when the remaining time `ttlMillis - now_ms` is negative
the reply is `1` for `pttl` and `0` for `ttl`; when it is exactly `0` the reply
is `0` for both. -/
theorem genericTtl_past_deadline (env : Env) (sess : Session) (key : String) (t : Trace)
    (pre : List RecordType) (type : RecordType) (post : List RecordType) (v : RecordValue)
    (nowMs : Nat)
    (hkey : sess.args[1]? = some key) (hsplit : probeTypes = pre ++ type :: post)
    (hpre : allMissing env sess key pre t = true)
    (hv : env.expireKeyIfNeeded (probeHistory env sess key pre t) sess key type =
      Expected.value v)
    (hne : v.ttlMillis ≠ 0)
    (hnow : nowMs = readClock env (probeHistory env sess key (pre ++ [type]) t) / 1000000) :
    (v.ttlMillis < nowMs →
      replyOf (GenericTtlCommand.run env "pttl" sess t) =
          some (Expected.value (Reply.integer 1)) ∧
      replyOf (GenericTtlCommand.run env "ttl" sess t) =
          some (Expected.value (Reply.integer 0))) ∧
    (v.ttlMillis = nowMs →
      replyOf (GenericTtlCommand.run env "pttl" sess t) =
          some (Expected.value (Reply.integer 0)) ∧
      replyOf (GenericTtlCommand.run env "ttl" sess t) =
          some (Expected.value (Reply.integer 0))) := by
  have hrun : ∀ nm, GenericTtlCommand.run env nm sess t =
      GenericTtlCommand.loop env nm sess key (type :: post)
        (probeHistory env sess key pre t) := by
    intro nm
    simp only [GenericTtlCommand.run, hkey]
    rw [hsplit]
    exact genericTtl_loop_skip env nm sess key pre _ t hpre
  have hclock := clock_ms_lt env (probeHistory env sess key (pre ++ [type]) t)
  rw [← hnow] at hclock
  rw [probeHistory_snoc, hv] at hnow
  rw [hrun, hrun]
  subst hnow
  refine ⟨?_, ?_⟩
  · intro hpast
    have hms := remainingMs_of_gt v.ttlMillis _ hpast hclock
    have hdiv : Int.tdiv 1 1000 = 0 := by decide
    simp [replyOf, GenericTtlCommand.loop, hv, Expected.status, RecordValue.getTtl, hne,
      fmtLongLong, hms, hdiv]
  · intro hzero
    have hms := remainingMs_self v.ttlMillis
    have hdiv : Int.tdiv 0 1000 = 0 := by decide
    simp [replyOf, GenericTtlCommand.loop, hv, Expected.status, RecordValue.getTtl, hne,
      fmtLongLong, hms, ← hzero, hdiv]

/-- C5 on samples: a live hash whose deadline passed one millisecond ago gives
`PTTL = 1` and `TTL = 0`; one whose deadline is the current millisecond gives
`0` for both. -/
theorem genericTtl_past_deadline_witness :
    (replyOf (GenericTtlCommand.run (sampleEnv sampleNowNs (liveHash 999999999) commitsOk)
        "pttl" ⟨["pttl", "k"], 0⟩ []) = some (Expected.value (Reply.integer 1)) ∧
      replyOf (GenericTtlCommand.run (sampleEnv sampleNowNs (liveHash 999999999) commitsOk)
        "ttl" ⟨["pttl", "k"], 0⟩ []) = some (Expected.value (Reply.integer 0))) ∧
    (replyOf (GenericTtlCommand.run (sampleEnv sampleNowNs (liveHash 1000000000) commitsOk)
        "pttl" ⟨["pttl", "k"], 0⟩ []) = some (Expected.value (Reply.integer 0)) ∧
      replyOf (GenericTtlCommand.run (sampleEnv sampleNowNs (liveHash 1000000000) commitsOk)
        "ttl" ⟨["pttl", "k"], 0⟩ []) = some (Expected.value (Reply.integer 0))) :=
  ⟨(genericTtl_past_deadline (sampleEnv sampleNowNs (liveHash 999999999) commitsOk)
      ⟨["pttl", "k"], 0⟩ "k" [] [RecordType.RT_KV, RecordType.RT_LIST_META]
      RecordType.RT_HASH_META [RecordType.RT_SET_META, RecordType.RT_ZSET_META]
      ⟨"h", 999999999⟩ 1000000000 rfl rfl (by decide) rfl (by decide)
      (by decide)).1 (by decide),
   (genericTtl_past_deadline (sampleEnv sampleNowNs (liveHash 1000000000) commitsOk)
      ⟨["pttl", "k"], 0⟩ "k" [] [RecordType.RT_KV, RecordType.RT_LIST_META]
      RecordType.RT_HASH_META [RecordType.RT_SET_META, RecordType.RT_ZSET_META]
      ⟨"h", 1000000000⟩ 1000000000 rfl rfl (by decide) rfl (by decide)
      (by decide)).2 (by decide)⟩

/-- C5 (as stated) fails: for a live hash with `ttlMillis = now_ms` the
remaining time is exactly `0` and `PTTL` replies `0`, not `1`. -/
theorem genericTtl_remaining_zero :
    replyOf (GenericTtlCommand.run (sampleEnv sampleNowNs (liveHash 1000000000) commitsOk)
        "pttl" ⟨["pttl", "k"], 0⟩ []) = some (Expected.value (Reply.integer 0)) ∧
    replyOf (GenericTtlCommand.run (sampleEnv sampleNowNs (liveHash 1000000000) commitsOk)
        "pttl" ⟨["pttl", "k"], 0⟩ []) ≠ some (Expected.value (Reply.integer 1)) := by
  decide

/-! ## `ExistsCommand::run` -/

theorem exists_loop_skip (env : Env) (sess : Session) (key : String)
    (pre rest : List RecordType) (t : Trace) (hpre : allMissing env sess key pre t = true) :
    ExistsCommand.loop env sess key (pre ++ rest) t =
      ExistsCommand.loop env sess key rest (probeHistory env sess key pre t) := by
  induction pre generalizing t with
  | nil => rfl
  | cons type pre ih =>
    simp only [allMissing, Bool.and_eq_true, isMissing_iff] at hpre
    obtain ⟨hm, hrest⟩ := hpre
    simp only [List.cons_append, probeHistory]
    rw [← ih _ hrest]
    rcases hm with h | h <;> simp [ExistsCommand.loop, h]

theorem exists_loop_first (env : Env) (sess : Session) (key : String)
    (type : RecordType) (rest : List RecordType) (t : Trace)
    (hm : isMissing (env.expireKeyIfNeeded t sess key type) = false) :
    ExistsCommand.loop env sess key (type :: rest) t =
      some (match env.expireKeyIfNeeded t sess key type with
            | .value _ => Expected.value (Reply.integer 1)
            | .error s h => Expected.error s h,
        Event.expireKeyIfNeeded key type (env.expireKeyIfNeeded t sess key type) :: t) := by
  simp only [isMissing, Bool.or_eq_false_iff, decide_eq_false_iff_not] at hm
  obtain ⟨h1, h2⟩ := hm
  simp only [ExistsCommand.loop, h1, h2, if_false]
  cases env.expireKeyIfNeeded t sess key type <;> rfl

/-- C7: `ExistsCommand::run`.  When all five probes report `NotFound` or
`Expired` the reply is `0`.  When the probes before some type report `NotFound`
or `Expired` and that type's probe returns a live record the reply is `1`; when
it returns another error, that error is the result.  The reply is `1` if and
only if some probe in the run returned a live record. -/
theorem existsCommand_replies (env : Env) (sess : Session) (key : String) (t : Trace)
    (hkey : sess.args[1]? = some key) :
    (allMissing env sess key [RecordType.RT_KV, RecordType.RT_LIST_META, RecordType.RT_HASH_META,
        RecordType.RT_SET_META, RecordType.RT_ZSET_META] t = true →
      ExistsCommand.run env sess t =
        some (Expected.value (Reply.integer 0), probeHistory env sess key [RecordType.RT_KV, RecordType.RT_LIST_META, RecordType.RT_HASH_META,
        RecordType.RT_SET_META, RecordType.RT_ZSET_META] t)) ∧
    (∀ pre type post rv, [RecordType.RT_KV, RecordType.RT_LIST_META, RecordType.RT_HASH_META,
        RecordType.RT_SET_META, RecordType.RT_ZSET_META] = pre ++ type :: post →
      allMissing env sess key pre t = true →
      env.expireKeyIfNeeded (probeHistory env sess key pre t) sess key type = Expected.value rv →
      ExistsCommand.run env sess t =
        some (Expected.value (Reply.integer 1), probeHistory env sess key (pre ++ [type]) t)) ∧
    (∀ pre type post s h, [RecordType.RT_KV, RecordType.RT_LIST_META, RecordType.RT_HASH_META,
        RecordType.RT_SET_META, RecordType.RT_ZSET_META] = pre ++ type :: post →
      allMissing env sess key pre t = true →
      env.expireKeyIfNeeded (probeHistory env sess key pre t) sess key type =
        Expected.error s h →
      s.code ≠ ErrorCodes.ERR_EXPIRED → s.code ≠ ErrorCodes.ERR_NOTFOUND →
      ExistsCommand.run env sess t =
        some (Expected.error s h, probeHistory env sess key (pre ++ [type]) t)) ∧
    (replyOf (ExistsCommand.run env sess t) = some (Expected.value (Reply.integer 1)) ↔
      ∃ pre type post rv, [RecordType.RT_KV, RecordType.RT_LIST_META, RecordType.RT_HASH_META,
        RecordType.RT_SET_META, RecordType.RT_ZSET_META] = pre ++ type :: post ∧
        allMissing env sess key pre t = true ∧
        env.expireKeyIfNeeded (probeHistory env sess key pre t) sess key type =
          Expected.value rv) := by
  rw [← probeTypes_eq]
  have hall : allMissing env sess key probeTypes t = true →
      ExistsCommand.run env sess t =
        some (Expected.value (Reply.integer 0), probeHistory env sess key probeTypes t) := by
    intro h
    simp only [ExistsCommand.run, hkey]
    have := exists_loop_skip env sess key probeTypes [] t h
    rw [List.append_nil] at this
    rw [this]
    rfl
  have hfirst : ∀ pre type post, probeTypes = pre ++ type :: post →
      allMissing env sess key pre t = true →
      isMissing (env.expireKeyIfNeeded (probeHistory env sess key pre t) sess key type)
        = false →
      ExistsCommand.run env sess t =
        some (match env.expireKeyIfNeeded (probeHistory env sess key pre t) sess key type with
              | .value _ => Expected.value (Reply.integer 1)
              | .error s h => Expected.error s h,
          probeHistory env sess key (pre ++ [type]) t) := by
    intro pre type post hsplit hpre hm
    simp only [ExistsCommand.run, hkey]
    rw [hsplit, exists_loop_skip env sess key pre _ t hpre, exists_loop_first _ _ _ _ _ _ hm,
      probeHistory_snoc]
  refine ⟨hall, ?_, ?_, ?_⟩
  · intro pre type post rv hsplit hpre hv
    rw [hfirst pre type post hsplit hpre (by rw [hv]; exact isMissing_value rv), hv]
  · intro pre type post s h hsplit hpre hv h1 h2
    rw [hfirst pre type post hsplit hpre (by rw [hv]; simp [isMissing, Expected.status, h1, h2]),
      hv]
  · constructor
    · intro hone
      rcases allMissing_or_first env sess key probeTypes t with h | ⟨pre, type, post, hs, hp, hm⟩
      · rw [hall h] at hone
        simp [replyOf] at hone
      · rw [hfirst pre type post hs hp hm] at hone
        cases hv : env.expireKeyIfNeeded (probeHistory env sess key pre t) sess key type with
        | value rv => exact ⟨pre, type, post, rv, hs, hp, hv⟩
        | error s h =>
          rw [hv] at hone
          simp [replyOf] at hone
    · rintro ⟨pre, type, post, rv, hs, hp, hv⟩
      rw [hfirst pre type post hs hp (by rw [hv]; exact isMissing_value rv), hv]
      rfl

/-- C7 on samples (scenario S5): a live string gives `EXISTS = 1`, a missing
key gives `0`, a `Busy` error of the list probe met after a missing string
probe is the result, and a key live only as a sorted set, the last type
probed, gives `1`. -/
theorem existsCommand_replies_witness :
    ExistsCommand.run (sampleEnv sampleNowNs liveNone commitsOk) ⟨["exists", "k"], 0⟩ [] =
      some (Expected.value (Reply.integer 0),
        probeHistory (sampleEnv sampleNowNs liveNone commitsOk) ⟨["exists", "k"], 0⟩ "k"
          [RecordType.RT_KV, RecordType.RT_LIST_META, RecordType.RT_HASH_META,
            RecordType.RT_SET_META, RecordType.RT_ZSET_META] []) ∧
    ExistsCommand.run (sampleEnv sampleNowNs liveKV commitsOk) ⟨["exists", "k"], 0⟩ [] =
      some (Expected.value (Reply.integer 1),
        [Event.expireKeyIfNeeded "k" RecordType.RT_KV (Expected.value ⟨"v", 0⟩)]) ∧
    replyOf (ExistsCommand.run (busyEnv sampleNowNs (liveHash 0)) ⟨["exists", "k"], 0⟩ []) =
      some (Expected.error stBusy rfl) ∧
    replyOf (ExistsCommand.run (sampleEnv sampleNowNs liveZset commitsOk)
        ⟨["exists", "k"], 0⟩ []) = some (Expected.value (Reply.integer 1)) := by
  refine ⟨?_, ?_, ?_, ?_⟩
  · exact (existsCommand_replies (sampleEnv sampleNowNs liveNone commitsOk)
      ⟨["exists", "k"], 0⟩ "k" [] rfl).1 (by decide)
  · exact (existsCommand_replies (sampleEnv sampleNowNs liveKV commitsOk)
      ⟨["exists", "k"], 0⟩ "k" [] rfl).2.1 [] RecordType.RT_KV
        [RecordType.RT_LIST_META, RecordType.RT_HASH_META, RecordType.RT_SET_META,
          RecordType.RT_ZSET_META] ⟨"v", 0⟩ rfl rfl rfl
  · rw [(existsCommand_replies (busyEnv sampleNowNs (liveHash 0))
      ⟨["exists", "k"], 0⟩ "k" [] rfl).2.2.1 [RecordType.RT_KV] RecordType.RT_LIST_META
        [RecordType.RT_HASH_META, RecordType.RT_SET_META, RecordType.RT_ZSET_META]
        stBusy rfl rfl (by decide) rfl (by decide) (by decide)]
    rfl
  · rw [(existsCommand_replies (sampleEnv sampleNowNs liveZset commitsOk)
      ⟨["exists", "k"], 0⟩ "k" [] rfl).2.1
        [RecordType.RT_KV, RecordType.RT_LIST_META, RecordType.RT_HASH_META,
          RecordType.RT_SET_META] RecordType.RT_ZSET_META [] ⟨"z", 0⟩ rfl (by decide) rfl]
    rfl

/-! ## `TypeCommand::run` -/

theorem type_loop_skip (env : Env) (sess : Session) (key : String)
    (pre rest : List (RecordType × String)) (t : Trace)
    (hpre : allMissing env sess key (pre.map Prod.fst) t = true) :
    TypeCommand.loop env sess key (pre ++ rest) t =
      TypeCommand.loop env sess key rest (probeHistory env sess key (pre.map Prod.fst) t) := by
  induction pre generalizing t with
  | nil => rfl
  | cons typestr pre ih =>
    simp only [List.map_cons, allMissing, Bool.and_eq_true, isMissing_iff] at hpre
    obtain ⟨hm, hrest⟩ := hpre
    simp only [List.cons_append, List.map_cons, probeHistory]
    rw [← ih _ hrest]
    rcases hm with h | h <;> simp [TypeCommand.loop, h]

theorem lookup_typeName (type : RecordType) (str : String)
    (h : (type, str) ∈ TypeCommand.lookup) : str = typeName type := by
  simp only [TypeCommand.lookup, List.mem_cons, Prod.mk.injEq, List.mem_singleton,
    List.not_mem_nil, or_false] at h
  rcases h with ⟨h1, h2⟩ | ⟨h1, h2⟩ | ⟨h1, h2⟩ | ⟨h1, h2⟩ | ⟨h1, h2⟩ <;> subst h1 <;> subst h2 <;> rfl

theorem map_fst_split (order : List (RecordType × String)) (pre : List RecordType)
    (type : RecordType) (post : List RecordType)
    (h : order.map Prod.fst = pre ++ type :: post) :
    ∃ entriesBefore str entriesAfter, order = entriesBefore ++ (type, str) :: entriesAfter ∧
      entriesBefore.map Prod.fst = pre := by
  induction pre generalizing order with
  | nil =>
    cases order with
    | nil => simp at h
    | cons x xs =>
      simp only [List.map_cons, List.nil_append, List.cons.injEq] at h
      obtain ⟨h1, _⟩ := h
      exact ⟨[], x.2, xs, by rw [← h1]; rfl, rfl⟩
  | cons p pre ih =>
    cases order with
    | nil => simp at h
    | cons x xs =>
      simp only [List.map_cons, List.cons_append, List.cons.injEq] at h
      obtain ⟨h1, h2⟩ := h
      obtain ⟨before, str, after, ho, hp⟩ := ih xs h2
      exact ⟨x :: before, str, after, by rw [ho]; rfl, by rw [List.map_cons, h1, hp]⟩

/-- C8: `TypeCommand::run`, for every order in which the map `lookup` is
visited.  The types probed are exactly `RT_KV`, `RT_LIST_META`, `RT_HASH_META`,
`RT_SET_META` and `RT_ZSET_META`, each once.  When the probes before some type
report `NotFound` or `Expired` and that type's probe returns a live record (in
particular when the key is live under exactly that type), the reply is the bulk
string of that type: "string", "list", "hash", "set", "zset" in turn.  When the
key is `NotFound` or `Expired` under all five types the reply is the bulk
string "none". -/
theorem typeCommand_replies (env : Env) (order : List (RecordType × String))
    (sess : Session) (key : String) (t : Trace)
    (horder : order.Perm TypeCommand.lookup) (hkey : sess.args[1]? = some key) :
    (order.map Prod.fst).Perm
      [RecordType.RT_KV, RecordType.RT_LIST_META, RecordType.RT_HASH_META,
        RecordType.RT_SET_META, RecordType.RT_ZSET_META] ∧
    (∀ pre type post rv, order.map Prod.fst = pre ++ type :: post →
      allMissing env sess key pre t = true →
      env.expireKeyIfNeeded (probeHistory env sess key pre t) sess key type =
        Expected.value rv →
      TypeCommand.run env order sess t =
        some (Expected.value (Reply.bulk (typeName type)),
          probeHistory env sess key (pre ++ [type]) t)) ∧
    (allMissing env sess key (order.map Prod.fst) t = true →
      TypeCommand.run env order sess t =
        some (Expected.value (Reply.bulk "none"),
          probeHistory env sess key (order.map Prod.fst) t)) := by
  refine ⟨?_, ?_, ?_⟩
  · exact horder.map Prod.fst
  · intro pre type post rv hsplit hpre hv
    obtain ⟨before, str, after, horder', hbefore⟩ := map_fst_split order pre type post hsplit
    subst hbefore
    have hmem : (type, str) ∈ TypeCommand.lookup := by
      rw [← horder.mem_iff, horder']
      simp
    have hstr := lookup_typeName type str hmem
    simp only [TypeCommand.run, hkey]
    rw [horder', type_loop_skip env sess key before _ t hpre, probeHistory_snoc, hv]
    simp [TypeCommand.loop, hv, Expected.status, fmtBulk, hstr]
  · intro h
    simp only [TypeCommand.run, hkey]
    have := type_loop_skip env sess key order [] t h
    rw [List.append_nil] at this
    rw [this]
    rfl

/-- C8 on samples (scenario S6): with only a hash meta record `TYPE k` is
"hash", with only a string "string", with only a sorted set "zset"; with no
record it is "none". -/
theorem typeCommand_replies_witness :
    replyOf (TypeCommand.run (sampleEnv sampleNowNs (liveHash 0) commitsOk) TypeCommand.lookup
        ⟨["type", "k"], 0⟩ []) = some (Expected.value (Reply.bulk "hash")) ∧
    replyOf (TypeCommand.run (sampleEnv sampleNowNs liveKV commitsOk) TypeCommand.lookup
        ⟨["type", "k"], 0⟩ []) = some (Expected.value (Reply.bulk "string")) ∧
    replyOf (TypeCommand.run (sampleEnv sampleNowNs liveZset commitsOk) TypeCommand.lookup
        ⟨["type", "k"], 0⟩ []) = some (Expected.value (Reply.bulk "zset")) ∧
    replyOf (TypeCommand.run (sampleEnv sampleNowNs liveNone commitsOk) TypeCommand.lookup
        ⟨["type", "k"], 0⟩ []) = some (Expected.value (Reply.bulk "none")) := by
  refine ⟨?_, ?_, ?_, ?_⟩
  · rw [(typeCommand_replies (sampleEnv sampleNowNs (liveHash 0) commitsOk) TypeCommand.lookup
      ⟨["type", "k"], 0⟩ "k" [] (List.Perm.refl _) rfl).2.1
        [RecordType.RT_KV, RecordType.RT_LIST_META] RecordType.RT_HASH_META
        [RecordType.RT_SET_META, RecordType.RT_ZSET_META] ⟨"h", 0⟩ rfl (by decide) rfl]
    rfl
  · rw [(typeCommand_replies (sampleEnv sampleNowNs liveKV commitsOk) TypeCommand.lookup
      ⟨["type", "k"], 0⟩ "k" [] (List.Perm.refl _) rfl).2.1
        [] RecordType.RT_KV
        [RecordType.RT_LIST_META, RecordType.RT_HASH_META, RecordType.RT_SET_META,
          RecordType.RT_ZSET_META] ⟨"v", 0⟩ rfl (by decide) rfl]
    rfl
  · rw [(typeCommand_replies (sampleEnv sampleNowNs liveZset commitsOk) TypeCommand.lookup
      ⟨["type", "k"], 0⟩ "k" [] (List.Perm.refl _) rfl).2.1
        [RecordType.RT_KV, RecordType.RT_LIST_META, RecordType.RT_HASH_META,
          RecordType.RT_SET_META] RecordType.RT_ZSET_META [] ⟨"z", 0⟩ rfl (by decide) rfl]
    rfl
  · rw [(typeCommand_replies (sampleEnv sampleNowNs liveNone commitsOk) TypeCommand.lookup
      ⟨["type", "k"], 0⟩ "k" [] (List.Perm.refl _) rfl).2.2 (by decide)]
    rfl

/-! ## `expireGeneric` -/

theorem expireGenericLoop_ok (probe : RecordType → M (Expected Bool))
    (types : List RecordType) (acc : Bool) (t : Trace) (bs : List Bool) (t' : Trace)
    (h : probesOk probe types t = some (bs, t')) :
    expireGenericLoop probe types acc t =
      some (Expected.value (if (acc || bs.any id) = true then fmtOne else fmtZero), t') := by
  induction types generalizing acc t bs with
  | nil =>
    simp only [probesOk, Option.some.injEq, Prod.mk.injEq] at h
    obtain ⟨h1, h2⟩ := h
    subst h1 h2
    simp [expireGenericLoop]
  | cons type rest ih =>
    simp only [probesOk] at h
    split at h
    · next b t1 hp =>
      split at h
      · next bs' t2 hrest =>
        simp only [Option.some.injEq, Prod.mk.injEq] at h
        obtain ⟨h1, h2⟩ := h
        subst h1 h2
        simp only [expireGenericLoop, hp]
        rw [ih (acc || b) t1 bs' hrest]
        simp [Bool.or_assoc]
      · simp at h
    · simp at h

theorem expireGenericLoop_error (probe : RecordType → M (Expected Bool))
    (pre : List RecordType) (type : RecordType) (post : List RecordType) (acc : Bool)
    (t : Trace) (bs : List Bool) (t1 : Trace) (s : Status) (hs : s.ok = false) (t2 : Trace)
    (h : probesOk probe pre t = some (bs, t1))
    (herr : probe type t1 = some (Expected.error s hs, t2)) :
    expireGenericLoop probe (pre ++ type :: post) acc t = some (Expected.error s hs, t2) := by
  induction pre generalizing acc t bs with
  | nil =>
    simp only [probesOk, Option.some.injEq, Prod.mk.injEq] at h
    obtain ⟨_, h2⟩ := h
    subst h2
    simp [expireGenericLoop, herr]
  | cons ty rest ih =>
    simp only [probesOk] at h
    split at h
    · next b t1' hp =>
      split at h
      · next bs' t2' hrest =>
        simp only [Option.some.injEq, Prod.mk.injEq] at h
        obtain ⟨_, h2⟩ := h
        subst h2
        simp only [List.cons_append, expireGenericLoop, hp]
        exact ih (acc || b) t1' bs' hrest
      · simp at h
    · simp at h

theorem expireGeneric_eq_loop (env : Env) (sess : Session) (expireAt : Nat) (key : String)
    (t : Trace) :
    expireGeneric env sess expireAt key t =
      expireGenericLoop (expireProbe env sess key expireAt (readClock env t / 1000000))
        probeTypes false (Event.nsSinceEpoch (readClock env t) :: t) := by
  unfold expireGeneric expireProbe
  by_cases h : expireAt ≥ readClock env t / 1000000 <;> simp [h]

/-- C3: `expireGeneric`, with `probe` the probe it runs (`expireAfterNow` when
`expireAt >= now_ms`, else `expireBeforeNow`) on the types `RT_KV`,
`RT_LIST_META`, `RT_HASH_META`, `RT_SET_META`, `RT_ZSET_META` in that order.
When all five probes return a value, the reply is `1` if at least one returned
`true` and `0` if every one returned `false`.  When the probes of the first
types return values and the next probe returns an error, that error is the
result and the history ends with that probe: no later probe is run. -/
theorem expireGeneric_aggregates (env : Env) (sess : Session) (expireAt : Nat)
    (key : String) (t : Trace) :
    (∀ bs t',
      probesOk (expireProbe env sess key expireAt (readClock env t / 1000000)) [RecordType.RT_KV, RecordType.RT_LIST_META, RecordType.RT_HASH_META,
        RecordType.RT_SET_META, RecordType.RT_ZSET_META]
        (Event.nsSinceEpoch (readClock env t) :: t) = some (bs, t') →
      expireGeneric env sess expireAt key t =
        some (Expected.value (Reply.integer (if true ∈ bs then 1 else 0)), t')) ∧
    (∀ pre type post bs t1 s hs t2, [RecordType.RT_KV, RecordType.RT_LIST_META, RecordType.RT_HASH_META,
        RecordType.RT_SET_META, RecordType.RT_ZSET_META] = pre ++ type :: post →
      probesOk (expireProbe env sess key expireAt (readClock env t / 1000000)) pre
        (Event.nsSinceEpoch (readClock env t) :: t) = some (bs, t1) →
      expireProbe env sess key expireAt (readClock env t / 1000000) type t1 =
        some (Expected.error s hs, t2) →
      expireGeneric env sess expireAt key t = some (Expected.error s hs, t2)) := by
  rw [← probeTypes_eq]
  refine ⟨?_, ?_⟩
  · intro bs t' h
    rw [expireGeneric_eq_loop, expireGenericLoop_ok _ _ _ _ _ _ h]
    by_cases hb : true ∈ bs <;> simp [hb, fmtOne, fmtZero]
  · intro pre type post bs t1 s hs t2 hsplit h herr
    rw [expireGeneric_eq_loop, hsplit]
    exact expireGenericLoop_error _ pre type post false _ bs t1 s hs t2 h herr

/-- C3 on samples: with a live string key the rewrite probes return
`true, false, false, false, false` and the reply is `1`; with no record the
delete probes all return `false` and the reply is `0`; when the list probe
fails with `Busy` after the string probe, `Busy` is the result and the history
ends there; with a key live only as a sorted set the fifth probe returns `true`
and the reply is `1`. -/
theorem expireGeneric_aggregates_witness :
    replyOf (expireGeneric (sampleEnv sampleNowNs liveKV commitsOk) ⟨["expire", "k", "10"], 0⟩
        1000010000 "k" []) = some (Expected.value (Reply.integer 1)) ∧
    replyOf (expireGeneric (sampleEnv sampleNowNs liveNone commitsOk) ⟨["expireat", "k", "1"], 0⟩
        1000 "k" []) = some (Expected.value (Reply.integer 0)) ∧
    expireGeneric (busyEnv sampleNowNs liveKV) ⟨["expireat", "k", "1"], 0⟩ 1000 "k" [] =
      some (Expected.error stBusy rfl,
        [Event.delKeyChkExpire "k" RecordType.RT_LIST_META (Expected.error stBusy rfl),
         Event.delKeyChkExpire "k" RecordType.RT_KV (Expected.value true),
         Event.nsSinceEpoch 1000000000000000]) ∧
    replyOf (expireGeneric (sampleEnv sampleNowNs liveZset commitsOk)
        ⟨["expireat", "k", "1"], 0⟩ 1000 "k" []) = some (Expected.value (Reply.integer 1)) := by
  refine ⟨?_, ?_, ?_, ?_⟩
  · rw [(expireGeneric_aggregates (sampleEnv sampleNowNs liveKV commitsOk)
      ⟨["expire", "k", "10"], 0⟩ 1000010000 "k" []).1 [true, false, false, false, false] _ rfl]
    rfl
  · rw [(expireGeneric_aggregates (sampleEnv sampleNowNs liveNone commitsOk)
      ⟨["expireat", "k", "1"], 0⟩ 1000 "k" []).1 [false, false, false, false, false] _ rfl]
    rfl
  · exact (expireGeneric_aggregates (busyEnv sampleNowNs liveKV)
      ⟨["expireat", "k", "1"], 0⟩ 1000 "k" []).2 [RecordType.RT_KV] RecordType.RT_LIST_META
        [RecordType.RT_HASH_META, RecordType.RT_SET_META, RecordType.RT_ZSET_META]
        [true] _ stBusy rfl _ rfl rfl rfl
  · rw [(expireGeneric_aggregates (sampleEnv sampleNowNs liveZset commitsOk)
      ⟨["expireat", "k", "1"], 0⟩ 1000 "k" []).1 [false, false, false, false, true] _ rfl]
    rfl

/-! ## The retry loop of `expireAfterNow` -/

theorem expireAfterNowLoop_iter (env : Env) (store : Nat) (rk : RecordKey) (expireAt : Nat)
    (n i : Nat) (t : Trace)
    (hcont : i ≠ RETRY_CNT - 1 → ∀ t', ∃ r new,
      expireAfterNowLoop env store rk expireAt n (i + 1) t' = some (r, new ++ t') ∧
        RetryLoopFacts store rk expireAt n r new) :
    ∃ r new, expireAfterNowLoop env store rk expireAt (n + 1) i t = some (r, new ++ t) ∧
      RetryLoopFacts store rk expireAt (n + 1) r new := by
  simp only [expireAfterNowLoop]
  generalize hc : env.createTransaction t store = ptxn
  cases ptxn with
  | error s h =>
    refine ⟨_, [_], rfl, ⟨?_, ?_, ?_, ?_, ?_, ?_⟩⟩
    · simp [Event.isCreateTransaction]
    · intro e0 rest h0 hrest
      simp [opensOnlyAfterConflict, Event.isCreateTransaction, h0, hrest]
    · simp [Event.isCommitRetry]
    · simp
    · simp [Event.isCommitOk]
    · intro _ _ _ _ hmem
      simp at hmem
  | value txn =>
    simp only
    generalize hg : env.getKV (Event.createTransaction store (Expected.value txn) :: t)
      store rk txn = eValue
    by_cases hnf : eValue.status.code = ErrorCodes.ERR_NOTFOUND
    · simp only [hnf, if_true]
      refine ⟨_, [_, _], rfl, ⟨?_, ?_, ?_, ?_, ?_, ?_⟩⟩
      · simp [Event.isCreateTransaction]
      · intro e0 rest h0 hrest
        simp [opensOnlyAfterConflict, Event.isCreateTransaction, h0, hrest]
      · simp [Event.isCommitRetry]
      · simp
      · simp [Event.isCommitOk]
      · intro store' rk' txn' res hmem _
        simp only [List.mem_cons, List.mem_singleton, List.not_mem_nil, or_false,
          Event.getKV.injEq, reduceCtorEq] at hmem
        obtain ⟨h1, h2, h3, h4⟩ := hmem
        subst h1 h2 h3 h4
        exact ⟨rfl, [], rfl⟩
    · simp only [hnf, if_false]
      cases eValue with
      | error s h =>
        refine ⟨_, [_, _], rfl, ⟨?_, ?_, ?_, ?_, ?_, ?_⟩⟩
        · simp [Event.isCreateTransaction]
        · intro e0 rest h0 hrest
          simp [opensOnlyAfterConflict, Event.isCreateTransaction, h0, hrest]
        · simp [Event.isCommitRetry]
        · simp
        · simp [Event.isCommitOk]
        · intro store' rk' txn' res hmem hcode
          simp only [List.mem_cons, List.mem_singleton, List.not_mem_nil, or_false,
            Event.getKV.injEq, reduceCtorEq] at hmem
          rw [hmem.2.2.2] at hcode
          exact absurd hcode hnf
      | value v =>
        simp only
        generalize hs : env.setKV
          (Event.getKV store rk txn (Expected.value v) ::
            Event.createTransaction store (Expected.value txn) :: t)
          store rk (v.setTtl expireAt) txn = s
        by_cases hok : s.ok = false
        · rw [dif_pos hok]
          refine ⟨_, [_, _, _], rfl, ⟨?_, ?_, ?_, ?_, ?_, ?_⟩⟩
          · simp [Event.isCreateTransaction]
          · intro e0 rest h0 hrest
            simp [opensOnlyAfterConflict, Event.isCreateTransaction, h0, hrest]
          · simp [Event.isCommitRetry]
          · simp
          · simp [Event.isCommitOk]
          · intro _ _ _ res hmem hcode
            simp only [List.mem_cons, List.mem_singleton, List.not_mem_nil, or_false,
              Event.getKV.injEq, reduceCtorEq, false_or, or_false] at hmem
            rw [hmem.2.2.2] at hcode
            simp [Expected.status] at hcode
        · rw [dif_neg hok]
          generalize hcm : env.commit
            (Event.setKV store rk (v.setTtl expireAt) txn s ::
              Event.getKV store rk txn (Expected.value v) ::
              Event.createTransaction store (Expected.value txn) :: t) txn = commitStatus
          cases commitStatus with
          | value c =>
            refine ⟨_, [_, _, _, _], rfl, ⟨?_, ?_, ?_, ?_, ?_, ?_⟩⟩
            · simp [Event.isCreateTransaction]
            · intro e0 rest h0 hrest
              simp [opensOnlyAfterConflict, Event.isCreateTransaction, h0, hrest]
            · simp [Event.isCommitRetry]
            · intro _
              exact ⟨txn, v, c, s, [], by simpa using hok, rfl⟩
            · simp
            · intro _ _ _ res hmem hcode
              simp only [List.mem_cons, List.mem_singleton, List.not_mem_nil, or_false,
                Event.getKV.injEq, reduceCtorEq, false_or, or_false] at hmem
              rw [hmem.2.2.2] at hcode
              simp [Expected.status] at hcode
          | error cs h =>
            simp only
            by_cases hretry : cs.code = ErrorCodes.ERR_COMMIT_RETRY
            · simp only [hretry, ne_eq, not_true_eq_false, if_false]
              by_cases hlast : i = RETRY_CNT - 1
              · simp only [hlast, if_true]
                refine ⟨_, [_, _, _, _], rfl, ⟨?_, ?_, ?_, ?_, ?_, ?_⟩⟩
                · simp [Event.isCreateTransaction]
                · intro e0 rest h0 hrest
                  simp [opensOnlyAfterConflict, Event.isCreateTransaction, h0, hrest]
                · intro _
                  exact ⟨txn, cs, h, _, rfl, hretry, rfl⟩
                · simp
                · simp [Event.isCommitOk]
                · intro _ _ _ res hmem hcode
                  simp only [List.mem_cons, List.mem_singleton, List.not_mem_nil, or_false,
                    Event.getKV.injEq, reduceCtorEq, false_or, or_false] at hmem
                  rw [hmem.2.2.2] at hcode
                  simp [Expected.status] at hcode
              · simp only [hlast, if_false]
                obtain ⟨r, new, hrun, hfacts⟩ := hcont hlast
                  (Event.commit txn (Expected.error cs h) ::
                    Event.setKV store rk (v.setTtl expireAt) txn s ::
                    Event.getKV store rk txn (Expected.value v) ::
                    Event.createTransaction store (Expected.value txn) :: t)
                refine ⟨r, new ++ [Event.commit txn (Expected.error cs h),
                    Event.setKV store rk (v.setTtl expireAt) txn s,
                    Event.getKV store rk txn (Expected.value v),
                    Event.createTransaction store (Expected.value txn)], ?_, ⟨?_, ?_, ?_, ?_, ?_, ?_⟩⟩
                · rw [hrun]
                  simp
                · have := hfacts.opened
                  simp [List.filter_append, Event.isCreateTransaction]
                  omega
                · intro e0 rest h0 hrest
                  have := hfacts.ordered (Event.commit txn (Expected.error cs h))
                    (Event.setKV store rk (v.setTtl expireAt) txn s ::
                      Event.getKV store rk txn (Expected.value v) ::
                      Event.createTransaction store (Expected.value txn) :: e0 :: rest)
                    (by simp [Event.isCommitRetry, hretry])
                    (by simp [opensOnlyAfterConflict, Event.isCreateTransaction, h0, hrest])
                  simpa using this
                · intro hcount
                  have hn : (new.filter Event.isCommitRetry).length = n := by
                    simp [List.filter_append, Event.isCommitRetry, hretry] at hcount
                    omega
                  obtain ⟨txn', s', h', rest', hnew, hcode, hr⟩ := hfacts.exhausted hn
                  exact ⟨txn', s', h', rest' ++ _, by rw [hnew]; rfl, hcode, hr⟩
                · intro hr
                  obtain ⟨txn', v', c', s', rest', hs', hnew⟩ := hfacts.written hr
                  exact ⟨txn', v', c', s', rest' ++ _, hs', by rw [hnew]; rfl⟩
                · intro hr e he
                  simp only [List.mem_append, List.mem_cons, List.mem_singleton,
                    List.not_mem_nil, or_false] at he
                  rcases he with he | he | he | he | he
                  · exact hfacts.uncommitted hr e he
                  all_goals subst he; rfl
                · intro store' rk' txn' res hmem hcode
                  rw [List.mem_append] at hmem
                  rcases hmem with hmem | hmem
                  · obtain ⟨hr, rest', hshape⟩ := hfacts.vanished store' rk' txn' res hmem hcode
                    exact ⟨hr, rest' ++ _, by rw [hshape]; rfl⟩
                  · simp only [List.mem_cons, List.mem_singleton, List.not_mem_nil, or_false,
                      Event.getKV.injEq, reduceCtorEq, false_or] at hmem
                    rw [hmem.2.2.2] at hcode
                    simp [Expected.status] at hcode
            · simp only [hretry, ne_eq, not_false_eq_true, if_true]
              refine ⟨_, [_, _, _, _], rfl, ⟨?_, ?_, ?_, ?_, ?_, ?_⟩⟩
              · simp [Event.isCreateTransaction]
              · intro e0 rest h0 hrest
                simp [opensOnlyAfterConflict, Event.isCreateTransaction, h0, hrest]
              · simp [Event.isCommitRetry, hretry]
              · simp
              · simp [Event.isCommitOk]
              · intro _ _ _ res hmem hcode
                simp only [List.mem_cons, List.mem_singleton, List.not_mem_nil, or_false,
                  Event.getKV.injEq, reduceCtorEq, false_or, or_false] at hmem
                rw [hmem.2.2.2] at hcode
                simp [Expected.status] at hcode

theorem expireAfterNowLoop_facts (env : Env) (store : Nat) (rk : RecordKey) (expireAt : Nat)
    (n : Nat) : ∀ (i : Nat) (t : Trace), i + (n + 1) = RETRY_CNT →
    ∃ r new, expireAfterNowLoop env store rk expireAt (n + 1) i t = some (r, new ++ t) ∧
      RetryLoopFacts store rk expireAt (n + 1) r new := by
  induction n with
  | zero =>
    intro i t hi
    exact expireAfterNowLoop_iter env store rk expireAt 0 i t
      (fun h => absurd (by simp only [RETRY_CNT] at hi ⊢; omega) h)
  | succ n ih =>
    intro i t hi
    exact expireAfterNowLoop_iter env store rk expireAt (n + 1) i t
      (fun _ t' => ih (i + 1) t' (by omega))

/-! ## `expireAfterNow` -/

theorem expireAfterNow_cases (env : Env) (sess : Session) (type : RecordType) (key : String)
    (expireAt : Nat) (t : Trace) :
    (isMissing (env.expireKeyIfNeeded t sess key type) = true ∧
      expireAfterNow env sess type key expireAt t =
        some (Expected.value false,
          [Event.expireKeyIfNeeded key type (env.expireKeyIfNeeded t sess key type)] ++ t)) ∨
    (isMissing (env.expireKeyIfNeeded t sess key type) = false ∧
      ∃ s h, expireAfterNow env sess type key expireAt t =
        some (Expected.error s h,
          [Event.expireKeyIfNeeded key type (env.expireKeyIfNeeded t sess key type)] ++ t)) ∨
    (isMissing (env.expireKeyIfNeeded t sess key type) = false ∧
      ∃ s h, expireAfterNow env sess type key expireAt t =
        some (Expected.error s h,
          [Event.getDbWithKeyLock key (Expected.error s h),
            Event.expireKeyIfNeeded key type (env.expireKeyIfNeeded t sess key type)] ++ t)) ∨
    (isMissing (env.expireKeyIfNeeded t sess key type) = false ∧
      ∃ db r new, expireAfterNow env sess type key expireAt t =
        some (r, (new ++ [Event.getDbWithKeyLock key (Expected.value db),
            Event.expireKeyIfNeeded key type (env.expireKeyIfNeeded t sess key type)]) ++ t) ∧
        RetryLoopFacts db.store ⟨db.chunkId, sess.dbId, type, key, ""⟩ expireAt RETRY_CNT
          r new) := by
  unfold expireAfterNow
  simp only
  generalize env.expireKeyIfNeeded t sess key type = rv
  by_cases h1 : rv.status.code = ErrorCodes.ERR_EXPIRED
  · left
    simp [isMissing, h1]
  · by_cases h2 : rv.status.code = ErrorCodes.ERR_NOTFOUND
    · left
      simp [isMissing, h2]
    · right
      have hm : isMissing rv = false := by simp [isMissing, h1, h2]
      simp only [h1, h2, if_false]
      cases rv with
      | error s h => exact Or.inl ⟨hm, s, h, rfl⟩
      | value v =>
        right
        simp only
        generalize env.getDbWithKeyLock
          (Event.expireKeyIfNeeded key type (Expected.value v) :: t) sess key = expdb
        cases expdb with
        | error s h => exact Or.inl ⟨hm, s, h, rfl⟩
        | value db =>
          right
          obtain ⟨r, new, hrun, hfacts⟩ := expireAfterNowLoop_facts env db.store
            ⟨db.chunkId, sess.dbId, type, key, ""⟩ expireAt 2 0
            (Event.getDbWithKeyLock key (Expected.value db) ::
              Event.expireKeyIfNeeded key type (Expected.value v) :: t) rfl
          refine ⟨hm, db, r, new, ?_, hfacts⟩
          simp only
          rw [show RETRY_CNT = 2 + 1 from rfl, hrun]
          simp

/-- C9: with `RETRY_CNT = 3` the retry loop of `expireAfterNow` always returns
a result from inside the loop (the branch after the loop is not reached), and
so does `expireAfterNow`.  A run opens at most `3` transactions; each is opened
right after the key lock was taken (the first) or right after a `commit` that
returned `CommitRetry` (a retry); and when `3` commits returned `CommitRetry`
the result is the `CommitRetry` error of the last one. -/
theorem expireAfterNow_bounded_retry (env : Env) (sess : Session) (type : RecordType)
    (key : String) (expireAt : Nat) (t : Trace) :
    (∀ store rk t0, ∃ r new,
      expireAfterNowLoop env store rk expireAt RETRY_CNT 0 t0 = some (r, new ++ t0)) ∧
    ∃ r new, expireAfterNow env sess type key expireAt t = some (r, new ++ t) ∧
      (new.filter Event.isCreateTransaction).length ≤ 3 ∧
      opensOnlyAfterConflict new = true ∧
      ((new.filter Event.isCommitRetry).length = 3 →
        ∃ txn s h rest, new = Event.commit txn (Expected.error s h) :: rest ∧
          s.code = ErrorCodes.ERR_COMMIT_RETRY ∧ r = Expected.error s h) := by
  refine ⟨?_, ?_⟩
  · intro store rk t0
    obtain ⟨r, new, hrun, _⟩ := expireAfterNowLoop_facts env store rk expireAt 2 0 t0 rfl
    exact ⟨r, new, hrun⟩
  · rcases expireAfterNow_cases env sess type key expireAt t with
      ⟨_, hrun⟩ | ⟨_, s, h, hrun⟩ | ⟨_, s, h, hrun⟩ | ⟨_, db, r, new, hrun, hfacts⟩
    · refine ⟨_, _, hrun, ?_, ?_, ?_⟩ <;>
        simp [Event.isCreateTransaction, Event.isCommitRetry, opensOnlyAfterConflict]
    · refine ⟨_, _, hrun, ?_, ?_, ?_⟩ <;>
        simp [Event.isCreateTransaction, Event.isCommitRetry, opensOnlyAfterConflict]
    · refine ⟨_, _, hrun, ?_, ?_, ?_⟩ <;>
        simp [Event.isCreateTransaction, Event.isCommitRetry, opensOnlyAfterConflict,
          Event.isLock]
    · refine ⟨_, _, hrun, ?_, ?_, ?_⟩
      · have := hfacts.opened
        simp only [RETRY_CNT] at this
        simpa [List.filter_append, Event.isCreateTransaction] using this
      · exact hfacts.ordered _ _ (by simp [Event.isLock])
          (by simp [opensOnlyAfterConflict, Event.isCreateTransaction])
      · intro hcount
        have hn : (new.filter Event.isCommitRetry).length = RETRY_CNT := by
          simpa [List.filter_append, Event.isCommitRetry] using hcount
        obtain ⟨txn, s, h, rest, hnew, hcode, hr⟩ := hfacts.exhausted hn
        exact ⟨txn, s, h, rest ++ _, by rw [hnew]; rfl, hcode, hr⟩

/-- C9 on a sample: when every commit reports `CommitRetry`, three
transactions are opened, each after the lock or a `CommitRetry`, and the result
is the error of the last commit. -/
theorem expireAfterNow_bounded_retry_witness :
    ∃ r new, expireAfterNow (sampleEnv sampleNowNs liveKV commitsRetry)
        ⟨["expire", "k", "10"], 0⟩ RecordType.RT_KV "k" 1000010000 [] = some (r, new) ∧
      (new.filter Event.isCreateTransaction).length = 3 ∧
      (new.filter Event.isCommitRetry).length = 3 ∧
      opensOnlyAfterConflict new = true ∧
      ∃ txn s h rest, new = Event.commit txn (Expected.error s h) :: rest ∧
        s.code = ErrorCodes.ERR_COMMIT_RETRY ∧ r = Expected.error s h := by
  obtain ⟨r, new, hrun, _, hordered, hexhausted⟩ :=
    (expireAfterNow_bounded_retry (sampleEnv sampleNowNs liveKV commitsRetry)
      ⟨["expire", "k", "10"], 0⟩ RecordType.RT_KV "k" 1000010000 []).2
  have hnew : new = ((expireAfterNow (sampleEnv sampleNowNs liveKV commitsRetry)
      ⟨["expire", "k", "10"], 0⟩ RecordType.RT_KV "k" 1000010000 []).map Prod.snd).getD [] := by
    rw [hrun]
    simp
  have hc1 : (new.filter Event.isCreateTransaction).length = 3 := by rw [hnew]; rfl
  have hc2 : (new.filter Event.isCommitRetry).length = 3 := by rw [hnew]; rfl
  rw [List.append_nil] at hrun
  exact ⟨r, new, hrun, hc1, hc2, hordered, hexhausted hc2⟩

/-- C10: a run of `expireAfterNow` with result `r` that made the calls `new`
(newest first).  If `r` is `true`, the newest calls are, in one transaction of
the locked store: the re-read of the key `(chunkId, dbId, type, key, "")`, the
write under that key of the value just read with `ttlMillis` replaced by
`expireAt` and the payload unchanged, and a successful commit.  If the initial
probe reports `NotFound` or `Expired`, the result is `false` and the probe is
the only call made.  If any re-read of the run reports `NotFound`, the result
is `false`, that re-read is the newest call of the run (nothing is written or
committed after it), it directly follows the opening of its transaction (no
write in it), and no commit of the run succeeded. -/
theorem expireAfterNow_effect (env : Env) (sess : Session) (type : RecordType)
    (key : String) (expireAt : Nat) (t : Trace) (r : Expected Bool) (new : Trace)
    (hrun : expireAfterNow env sess type key expireAt t = some (r, new ++ t)) :
    (r = Expected.value true →
      ∃ db txn v c s rest, s.ok = true ∧
        new = Event.commit txn (Expected.value c) ::
          Event.setKV db.store ⟨db.chunkId, sess.dbId, type, key, ""⟩ (v.setTtl expireAt) txn s ::
          Event.getKV db.store ⟨db.chunkId, sess.dbId, type, key, ""⟩ txn (Expected.value v) ::
          Event.createTransaction db.store (Expected.value txn) :: rest ∧
        Event.getDbWithKeyLock key (Expected.value db) ∈ rest ∧
        (v.setTtl expireAt).ttlMillis = expireAt ∧ (v.setTtl expireAt).payload = v.payload) ∧
    (isMissing (env.expireKeyIfNeeded t sess key type) = true →
      r = Expected.value false ∧
        new = [Event.expireKeyIfNeeded key type (env.expireKeyIfNeeded t sess key type)]) ∧
    (∀ store rk txn res, Event.getKV store rk txn res ∈ new →
      res.status.code = ErrorCodes.ERR_NOTFOUND →
      r = Expected.value false ∧
        (∃ store0 rest', new = Event.getKV store rk txn res ::
          Event.createTransaction store0 (Expected.value txn) :: rest') ∧
        ∀ e ∈ new, e.isCommitOk = false) := by
  rcases expireAfterNow_cases env sess type key expireAt t with
    ⟨hm, hrun'⟩ | ⟨hm, s, h, hrun'⟩ | ⟨hm, s, h, hrun'⟩ | ⟨hm, db, r', new', hrun', hfacts⟩
  all_goals
    rw [hrun'] at hrun
    simp only [Option.some.injEq, Prod.mk.injEq] at hrun
    obtain ⟨hr, hnew⟩ := hrun
    have hnew := (List.append_cancel_right hnew).symm
    subst hr
  · refine ⟨by simp, fun _ => ⟨rfl, hnew⟩, ?_⟩
    intro _ _ _ _ h
    rw [hnew] at h
    simp at h
  · refine ⟨by simp, fun h => by simp [hm] at h, ?_⟩
    intro _ _ _ _ h
    rw [hnew] at h
    simp at h
  · refine ⟨by simp, fun h => by simp [hm] at h, ?_⟩
    intro _ _ _ _ h
    rw [hnew] at h
    simp at h
  · refine ⟨?_, fun h => by simp [hm] at h, ?_⟩
    · intro hr
      obtain ⟨txn, v, c, s, rest, hs, hshape⟩ := hfacts.written hr
      refine ⟨db, txn, v, c, s, rest ++ _, hs, by rw [hnew, hshape]; rfl, ?_, rfl, rfl⟩
      simp
    · intro store rk txn res hmem hcode
      have hmem' : Event.getKV store rk txn res ∈ new' := by
        rw [hnew] at hmem
        simpa using hmem
      obtain ⟨hr, rest', hshape⟩ := hfacts.vanished store rk txn res hmem' hcode
      refine ⟨hr, ⟨_, rest' ++ _, by rw [hnew, hshape]; rfl⟩, ?_⟩
      intro e' he'
      rw [hnew] at he'
      simp only [List.mem_append, List.mem_cons, List.mem_singleton, List.not_mem_nil,
        or_false] at he'
      rcases he' with he' | he' | he'
      · exact hfacts.uncommitted (by rw [hr]; simp) e' he'
      all_goals subst he'; rfl

/-- C10 on samples: `expireAfterNow` with `expireAt = 1000010000` on a live
string returns `true` after writing the value read with the new TTL; on a
missing key it returns `false` with the probe as only call; when the record is
gone at the re-read, in the first transaction or in a retry after a
`CommitRetry`, it returns `false`, the re-read is the newest call and nothing
was committed. -/
theorem expireAfterNow_effect_witness :
    (expireAfterNow (sampleEnv sampleNowNs liveKV commitsOk) ⟨["expire", "k", "10"], 0⟩
        RecordType.RT_KV "k" 1000010000 [] = some (Expected.value true, sampleRewriteCalls) ∧
      ∃ db txn v c s rest, s.ok = true ∧
        sampleRewriteCalls = Event.commit txn (Expected.value c) ::
          Event.setKV db.store ⟨db.chunkId, 0, RecordType.RT_KV, "k", ""⟩
            (v.setTtl 1000010000) txn s ::
          Event.getKV db.store ⟨db.chunkId, 0, RecordType.RT_KV, "k", ""⟩ txn
            (Expected.value v) ::
          Event.createTransaction db.store (Expected.value txn) :: rest ∧
        Event.getDbWithKeyLock "k" (Expected.value db) ∈ rest ∧
        (v.setTtl 1000010000).ttlMillis = 1000010000 ∧
        (v.setTtl 1000010000).payload = v.payload) ∧
    (expireAfterNow (sampleEnv sampleNowNs liveNone commitsOk) ⟨["expire", "k", "10"], 0⟩
        RecordType.RT_KV "k" 1000010000 [] =
      some (Expected.value false,
        [Event.expireKeyIfNeeded "k" RecordType.RT_KV (Expected.error stNotFound rfl)])) ∧
    (expireAfterNow (vanishEnv sampleNowNs) ⟨["expire", "k", "10"], 0⟩
        RecordType.RT_KV "k" 1000010000 [] = some (Expected.value false, sampleVanishCalls) ∧
      (∃ store0 rest', sampleVanishCalls =
        Event.getKV 1 ⟨7, 0, RecordType.RT_KV, "k", ""⟩ 2 (Expected.error stNotFound rfl) ::
          Event.createTransaction store0 (Expected.value 2) :: rest') ∧
      ∀ e ∈ sampleVanishCalls, e.isCommitOk = false) ∧
    (expireAfterNow (retryVanishEnv sampleNowNs) ⟨["expire", "k", "10"], 0⟩
        RecordType.RT_KV "k" 1000010000 [] =
          some (Expected.value false, sampleRetryVanishCalls) ∧
      (∃ store0 rest', sampleRetryVanishCalls =
        Event.getKV 1 ⟨7, 0, RecordType.RT_KV, "k", ""⟩ 6 (Expected.error stNotFound rfl) ::
          Event.createTransaction store0 (Expected.value 6) :: rest') ∧
      ∀ e ∈ sampleRetryVanishCalls, e.isCommitOk = false) := by
  refine ⟨⟨rfl, ?_⟩, rfl, ⟨rfl, ?_⟩, ⟨rfl, ?_⟩⟩
  · exact (expireAfterNow_effect (sampleEnv sampleNowNs liveKV commitsOk)
      ⟨["expire", "k", "10"], 0⟩ RecordType.RT_KV "k" 1000010000 [] (Expected.value true)
      sampleRewriteCalls rfl).1 rfl
  · exact ((expireAfterNow_effect (vanishEnv sampleNowNs)
      ⟨["expire", "k", "10"], 0⟩ RecordType.RT_KV "k" 1000010000 [] (Expected.value false)
      sampleVanishCalls rfl).2.2 1 ⟨7, 0, RecordType.RT_KV, "k", ""⟩ 2
        (Expected.error stNotFound rfl) (List.Mem.head _) rfl).2
  · exact ((expireAfterNow_effect (retryVanishEnv sampleNowNs)
      ⟨["expire", "k", "10"], 0⟩ RecordType.RT_KV "k" 1000010000 [] (Expected.value false)
      sampleRetryVanishCalls rfl).2.2 1 ⟨7, 0, RecordType.RT_KV, "k", ""⟩ 6
        (Expected.error stNotFound rfl) (List.Mem.head _) rfl).2

end Tendis
